import Mathlib

/-!
# Cellular Orchestra: the distributed Rule 30 core

A shallow embedding of `src/main.cpp` (one node of the four-node ring) and of
`LedMatrix::setPixel`, and theorems about the automaton step, the ring
protocol, the control tick, the display and the triangle trigger.

Conventions of the embedding.

* Machine integers are natural numbers; a value stored into a `uint8_t` is
  reduced modulo 256 at the store.
* The global variables of the sketch are the fields of `Node`.  The build-time
  constant `ID` is a parameter of every function that mentions it, since
  "each creature runs this code, only the ID number changes".
* `Serial.write` appends to the field `serialOut`; the bytes that
  `Serial.read` delivers are an explicit input list.
* `random(100)` in `evolve` is an explicit argument `r`; the draws of
  `random(256)` in `setup` and the answer of `evDelay.ready()` in a control
  tick are explicit arguments too.
* `int` is the 16-bit `int` of the AVR target, so sums and differences of
  `uint16_t` values are taken modulo 65536.
* The LED matrix is its column buffer; the audio objects are left out, except
  that the calls of `triEnvelope.start` are logged in `envLog`.
-/

namespace CellularOrchestra

/-! ## Constants of the sketch -/

/-- The `NUM_NODES` constant: four creatures. -/
def NUM_NODES : Nat := 4

/-- The `WIDTH` constant: width of one automaton in bytes. -/
def WIDTH : Nat := 4

/-- The `HEIGHT` constant: number of rows of history. -/
def HEIGHT : Nat := 8

/-- The `RULE` constant: the 1D ruleset, `30 = 00011110`. -/
def RULE : Nat := 30

/-! ## Arduino core bit macros -/

/-- Arduino `bitRead(value, bit)`, which is `((value) >> (bit)) & 0x01`. -/
def bitRead (value bit : Nat) : Nat := (value >>> bit) &&& 1

/-- Arduino `bitSet(value, bit)`, which is `value |= (1UL << bit)`, on a
`uint8_t` target. -/
def bitSet (value bit : Nat) : Nat := (value ||| (1 <<< bit)) % 256

/-- Arduino `bitClear(value, bit)`, which is `value &= ~(1UL << bit)`, on a
`uint8_t` target; `~` is the complement of a 32-bit `unsigned long`. -/
def bitClear (value bit : Nat) : Nat :=
  (value &&& (((1 <<< bit) % 4294967296) ^^^ 4294967295)) % 256

/-- Arduino `bitWrite(value, bit, bitvalue)`, which is
`(bitvalue ? bitSet(value, bit) : bitClear(value, bit))`. -/
def bitWrite (value bit bitvalue : Nat) : Nat :=
  if bitvalue ≠ 0 then bitSet value bit else bitClear value bit

/-- The helper `mod` of the sketch: `(x % n + n) % n`, with C's truncating
remainder. -/
def mod (x n : Int) : Int := Int.tmod (Int.tmod x n + n) n

/-! ## State -/

/-- One call of the envelope `triEnvelope`: `start()` restarts it with the
times it has, `start(attack, decay)` sets the two times first. -/
inductive EnvStart where
  | restart
  | times (attack decay : Nat)
  deriving DecidableEq

/-- The global variables of one node.  `state i j` is `state[i][j]`: byte
`i` (left to right) of history row `j`.  `ledCols` is the column buffer
`cols` of the `LedMatrix` object, `ledIntensity` the last value given to
`setIntensity`, `envLog` the calls of `triEnvelope.start` so far. -/
structure Node where
  state : Nat → Nat → Nat
  currentRow : Nat
  generation : Nat
  prevTri : Nat
  offset : Nat
  population : Nat
  isDisplaying : Bool
  wasDisplaying : Bool
  sleepChance : Nat
  nLeftBit : Nat
  nRightBit : Nat
  leftReceived : Bool
  rightReceived : Bool
  sendingReadyMsg : Bool
  sentFirst : Bool
  serialOut : List Nat
  ledCols : Nat → Nat
  ledIntensity : Nat
  envLog : List EnvStart

/-- The assignment `state[i][j] = v`. -/
def setState (st : Nat → Nat → Nat) (i j v : Nat) : Nat → Nat → Nat :=
  fun i' j' => if i' = i ∧ j' = j then v else st i' j'

/-- `Serial.write(b)`. -/
def serialWrite (s : Node) (b : Nat) : Node :=
  { s with serialOut := s.serialOut ++ [b] }

/-! ## `sendLeftRight` and `sendReadyMsg` -/

/-- The encoding expression of `sendLeftRight`,
`(ID << 2) + (myLeftBit << 1) + (myRightBit)`, stored into the `uint8_t`
`msgToSend`. -/
def encodeMsg (ID myLeftBit myRightBit : Nat) : Nat :=
  ((ID <<< 2) + (myLeftBit <<< 1) + myRightBit) % 256

/-- The value of `msgToSend` in `sendLeftRight`: the node's ID with the
leftmost and rightmost cells of the current row. -/
def leftRightMsg (ID : Nat) (s : Node) : Nat :=
  let myLeftBit := bitRead (s.state 0 s.currentRow) 7
  let myRightBit := bitRead (s.state (WIDTH - 1) s.currentRow) 0
  encodeMsg ID myLeftBit myRightBit

/-- `sendLeftRight()`: send leftmost and rightmost cells on the network. -/
def sendLeftRight (ID : Nat) (s : Node) : Node :=
  serialWrite s (leftRightMsg ID s)

/-- `sendReadyMsg()`: write the ready byte 129. -/
def sendReadyMsg (s : Node) : Node :=
  serialWrite s 129

/-! ## `evolve` -/

/-- The rule lookup of `evolve`: `uint8_t ruleIdx = (4 * left) + (2 * self) +
right; int n = bitRead(RULE, ruleIdx);`. -/
def ruleLookup (left self right : Nat) : Nat :=
  let ruleIdx := (4 * left + 2 * self + right) % 256
  bitRead RULE ruleIdx

/-- The first half of the body of the inner loop of `evolve` for byte `i`
and bit `b`: read `left`, `self`, `right` from the current row and look the
new bit `n` up in `RULE`. -/
def newBit (s : Node) (i b : Nat) : Nat :=
  let left :=
    if b = 7 ∧ i = 0 then s.nLeftBit
    else if b = 7 ∧ i ≠ 0 then
      bitRead (s.state (mod ((i : Int) - 1) (WIDTH : Int)).toNat s.currentRow) 0
    else bitRead (s.state i s.currentRow) (b + 1)
  let self := bitRead (s.state i s.currentRow) b
  let right :=
    if b = 0 ∧ i = WIDTH - 1 then s.nRightBit
    else if b = 0 ∧ i ≠ WIDTH - 1 then
      bitRead (s.state ((i + 1) % WIDTH) s.currentRow) 7
    else bitRead (s.state i s.currentRow) (b - 1)
  ruleLookup left self right

/-- The three values `left`, `self`, `right` that `evolve` reads for byte
`i` and bit `b`, as in `newBit`. -/
def neighbourhood (s : Node) (i b : Nat) : Nat × Nat × Nat :=
  let left :=
    if b = 7 ∧ i = 0 then s.nLeftBit
    else if b = 7 ∧ i ≠ 0 then
      bitRead (s.state (mod ((i : Int) - 1) (WIDTH : Int)).toNat s.currentRow) 0
    else bitRead (s.state i s.currentRow) (b + 1)
  let self := bitRead (s.state i s.currentRow) b
  let right :=
    if b = 0 ∧ i = WIDTH - 1 then s.nRightBit
    else if b = 0 ∧ i ≠ WIDTH - 1 then
      bitRead (s.state ((i + 1) % WIDTH) s.currentRow) 7
    else bitRead (s.state i s.currentRow) (b - 1)
  (left, self, right)

/-- The body of the inner loop of `evolve` for byte `i` and bit `b`:
compute the new bit `n` and `bitWrite(state[i][(generation+1) % 8], b, n)`.
The 16-bit wrap of `generation+1` does not show in the row index, since 8
divides 65536. -/
def evolveCell (s : Node) (i b : Nat) : Node :=
  let n := newBit s i b
  let row := (s.generation + 1) % 8
  { s with state := setState s.state i row (bitWrite (s.state i row) b n) }

/-- The two nested loops of `evolve`: bytes `i = 0 .. WIDTH-1`, and within a
byte the bits `b = 7` down to `0`. -/
def evolveRow (s : Node) : Node :=
  (List.range WIDTH).foldl
    (fun s i => [7, 6, 5, 4, 3, 2, 1, 0].foldl (fun s b => evolveCell s i b) s) s

/-- `evolve()`: compute the next row, then the sleep/wake draw at every
30th generation.  `r` is the value `random(100)` returns when it is called.
`generation + offset` is a 16-bit unsigned sum on the AVR target. -/
def evolve (s : Node) (r : Nat) : Node :=
  let s := evolveRow s
  if ((s.generation + s.offset) % 65536) % 30 = 0 then
    if r < s.sleepChance ∧ s.isDisplaying = true then
      { s with isDisplaying := false }
    else if r < 90 ∧ s.isDisplaying = false then
      { s with isDisplaying := true }
    else s
  else s

/-! ## `updateSerial` -/

/-- The body of the `while` loop of `updateSerial` for one received byte
`msg`. -/
def updateSerialMsg (ID : Nat) (s : Node) (msg : Nat) : Node :=
  if msg = 129 then
    if ID = 0 then
      sendLeftRight ID { s with sendingReadyMsg := false }
    else
      serialWrite s msg
  else
    let incomingID := msg >>> 2
    let validID : Bool := decide (incomingID ≥ 0) && decide (incomingID ≤ 3)
    let s :=
      if s.generation = 0 ∧ s.sentFirst = false ∧ validID = true then
        { sendLeftRight ID s with sentFirst := true }
      else s
    if validID = true ∧ (incomingID : Int) = mod ((ID : Int) - 1) NUM_NODES
        ∧ (incomingID : Int) = mod ((ID : Int) + 1) NUM_NODES then
      let s := { s with nLeftBit := bitRead msg 0 }
      let s := { s with leftReceived := true }
      let s := { s with nRightBit := bitRead msg 1 }
      let s := { s with rightReceived := true }
      serialWrite s msg
    else if validID = true ∧ (incomingID : Int) = mod ((ID : Int) - 1) NUM_NODES then
      let s := { s with nLeftBit := bitRead msg 0 }
      let s := { s with leftReceived := true }
      serialWrite s msg
    else if validID = true ∧ (incomingID : Int) = mod ((ID : Int) + 1) NUM_NODES then
      let s := { s with nRightBit := bitRead msg 1 }
      let s := { s with rightReceived := true }
      serialWrite s msg
    else if incomingID ≠ ID then
      serialWrite s msg
    else s

/-- `updateSerial()`: drain the bytes `rx` available on the serial link,
in order. -/
def updateSerial (ID : Nat) (s : Node) (rx : List Nat) : Node :=
  rx.foldl (updateSerialMsg ID) s

/-! ## The LED matrix (`LedMatrix.cpp`) -/

/-- The index into `cols` that `LedMatrix::setPixel(x, y)` uses,
`(7-y) + (x/8)*8`, as the `int` it is computed in. -/
def colIndex (x y : Nat) : Int :=
  (7 - (y : Int)) + ((x / 8 : Nat) : Int) * 8

/-- `LedMatrix::setPixel(x, y)`: `bitWrite(cols[(7-y) + (x/8)*8], x%8, true)`. -/
def setPixel (cols : Nat → Nat) (x y : Nat) : Nat → Nat :=
  fun k => if (k : Int) = colIndex x y then bitWrite (cols k) (x % 8) 1 else cols k

/-- `LedMatrix::clear()` for the 4 devices of the sketch: `cols[col] = 0` for
`col < 4 * 8`. -/
def ledClear (cols : Nat → Nat) : Nat → Nat :=
  fun k => if k < 4 * 8 then 0 else cols k

/-! ## `display` -/

/-- The first argument of `setPixel` in `display`: `int x = (7-b) + (i * 8)`. -/
def pixelX (i b : Nat) : Int :=
  (7 - (b : Int)) + (i : Int) * 8

/-- The second argument of `setPixel` in `display`: `int y = j - currentRow;
if (y <= 0) y = 8+y;` and then `y-1`. -/
def pixelY (currentRow j : Nat) : Int :=
  let y : Int := (j : Int) - (currentRow : Int)
  let y : Int := if y ≤ 0 then 8 + y else y
  y - 1

/-- The body of the innermost loop of `display` for row `j`, byte `i`, bit
`b`: a set bit lights its pixel and counts into the `uint8_t population`.
The two `int` arguments of `setPixel` are converted to `byte`. -/
def displayCell (s : Node) (j i b : Nat) : Node :=
  let isOn := bitRead (s.state i j) b
  if isOn ≠ 0 then
    let x := (pixelX i b % 256).toNat
    let y := (pixelY s.currentRow j % 256).toNat
    let s := { s with ledCols := setPixel s.ledCols x y }
    { s with population := (s.population + 1) % 256 }
  else s

/-- The three nested loops of `display`: rows `j = 7` down to `0`, bytes
`i = 0 .. WIDTH-1`, bits `b = 7` down to `0`. -/
def displayLoops (s : Node) : Node :=
  [7, 6, 5, 4, 3, 2, 1, 0].foldl
    (fun s j => (List.range WIDTH).foldl
      (fun s i => [7, 6, 5, 4, 3, 2, 1, 0].foldl (fun s b => displayCell s j i b) s) s) s

/-- The statements of `display` before its loops: clear the buffer and the
population, and set the intensity when `isDisplaying` has changed. -/
def displayReset (s : Node) : Node :=
  let s := { s with ledCols := ledClear s.ledCols }
  let s := { s with population := 0 }
  if s.isDisplaying ≠ s.wasDisplaying then
    let s := if s.isDisplaying = true then { s with ledIntensity := 1 }
             else { s with ledIntensity := 0 }
    { s with wasDisplaying := s.isDisplaying }
  else s

/-- `display()`: the reset, then the three nested loops.  `commit()` sends
the buffer to the hardware and changes nothing here. -/
def display (s : Node) : Node :=
  displayLoops (displayReset s)

/-! ## `detectTri` and `sonify` -/

/-- Arduino `map(x, in_min, in_max, out_min, out_max)`, which is
`(x - in_min) * (out_max - out_min) / (in_max - in_min) + out_min` on `long`,
with C's truncating division. -/
def arduinoMap (x in_min in_max out_min out_max : Int) : Int :=
  Int.tdiv ((x - in_min) * (out_max - out_min)) (in_max - in_min) + out_min

/-- The body of the innermost loop of `detectTri` on the pair
`(streak, maxStreak)` for one bit read. -/
def streakStep (acc : Nat × Nat) (bit : Nat) : Nat × Nat :=
  if bit = 0 then (acc.1 + 1, acc.2)
  else (0, if acc.1 > acc.2 then acc.1 else acc.2)

/-- The three nested loops of `detectTri` (rows `j = 7` down to `0`, bytes
`i = 0 .. WIDTH-1`, bits `b = 7` down to `0`), from `streak = 0` and
`maxStreak = 0`: the final pair `(streak, maxStreak)`. -/
def streakScan (st : Nat → Nat → Nat) : Nat × Nat :=
  [7, 6, 5, 4, 3, 2, 1, 0].foldl
    (fun acc j => (List.range WIDTH).foldl
      (fun acc i => [7, 6, 5, 4, 3, 2, 1, 0].foldl
        (fun acc b => streakStep acc (bitRead (st i j) b)) acc) acc) (0, 0)

/-- The value of `maxStreak` when the loops of `detectTri` end. -/
def maxStreak (st : Nat → Nat → Nat) : Nat :=
  (streakScan st).2

/-- `detectTri()`.  `generation - prevTri` is a 16-bit unsigned difference on
the AVR target; `duration` and `decay` are `uint16_t`.  The choice of a pitch
for nodes 1 and 2 only sets oscillator frequencies and is left out. -/
def detectTri (s : Node) : Node :=
  if (s.generation + 65536 - s.prevTri) % 65536 > 8 then
    let maxStreak := maxStreak s.state
    if maxStreak > 6 then
      let s := { s with prevTri := s.generation }
      let duration := (arduinoMap maxStreak 7 14 1000 6000 % 65536).toNat
      let attack := 10
      let decay := (duration + 65536 - attack) % 65536
      { s with envLog := s.envLog ++ [EnvStart.times attack decay] }
    else s
  else s

/-- `sonify()`: for node 0 it sets two oscillator frequencies from the
population (left out: no modelled variable changes), then `detectTri()`. -/
def sonify (s : Node) : Node :=
  detectTri s

/-! ## `cycle` and `updateControl` -/

/-- The statement `generation++;` of `cycle`; `generation` is a `uint16_t`. -/
def incrGeneration (s : Node) : Node :=
  { s with generation := (s.generation + 1) % 65536 }

/-- The statement `currentRow = generation % 8;` of `cycle`; `currentRow` is
a `uint8_t`. -/
def setCurrentRow (s : Node) : Node :=
  { s with currentRow := (s.generation % 8) % 256 }

/-- The statements `leftReceived = false; rightReceived = false;` of
`cycle`. -/
def clearReceived (s : Node) : Node :=
  let s := { s with leftReceived := false }
  { s with rightReceived := false }

/-- `cycle()`.  `r` is the draw of `random(100)` in `evolve`. -/
def cycle (ID : Nat) (s : Node) (r : Nat) : Node :=
  let s := evolve s r
  let s := incrGeneration s
  let s := setCurrentRow s
  let s := display s
  let s := sonify s
  let s := sendLeftRight ID s
  clearReceived s

/-- `updateControl()`, one control tick.  `rx` are the bytes waiting on the
serial link, `ready` is what `evDelay.ready()` answers in this tick, `r` the
draw of `random(100)` if the tick evolves.  The filter, gain and envelope
updates at the end of the tick only touch audio variables and are left out. -/
def updateControl (ID : Nat) (s : Node) (rx : List Nat) (ready : Bool) (r : Nat) : Node :=
  let s := updateSerial ID s rx
  if s.sendingReadyMsg = true ∧ ready = true then
    sendReadyMsg s
  else if s.sendingReadyMsg = false then
    if ID = 0 ∧ ready = true then
      if s.leftReceived = true ∧ s.rightReceived = true then cycle ID s r else s
    else if ID ≠ 0 then
      if s.leftReceived = true ∧ s.rightReceived = true then cycle ID s r else s
    else s
  else s

/-- The condition under which `updateControl` calls `cycle`, on the state
after `updateSerial`: the handshake is over, both boundary bits have been
received, and on node 0 the timer is ready. -/
def advances (ID : Nat) (s : Node) (ready : Bool) : Prop :=
  s.sendingReadyMsg = false ∧ s.leftReceived = true ∧ s.rightReceived = true
    ∧ (ID = 0 → ready = true)

/-! ## `setup` and the reachable states -/

/-- The globals before `setup`: `currentRow`, `generation` and `prevTri` are
initialised to 0, `triEnvGain` too, and the others are zero-initialised. -/
def initialNode : Node where
  state := fun _ _ => 0
  currentRow := 0
  generation := 0
  prevTri := 0
  offset := 0
  population := 0
  isDisplaying := false
  wasDisplaying := false
  sleepChance := 0
  nLeftBit := 0
  nRightBit := 0
  leftReceived := false
  rightReceived := false
  sendingReadyMsg := false
  sentFirst := false
  serialOut := []
  ledCols := fun _ => 0
  ledIntensity := 0
  envLog := []

/-- The statements of `setup` before `display()`.  `offsetDraw` is the draw
of `random(256)` for `offset`, `rowDraw i` the draw for `state[i][0]`. -/
def setupGrid (offsetDraw : Nat) (rowDraw : Nat → Nat) : Node :=
  let s := initialNode
  let s := { s with offset := offsetDraw % 256 }
  let s := { s with ledIntensity := 1 }
  let s := { s with ledCols := ledClear s.ledCols }
  let s := { s with isDisplaying := true }
  let s := { s with sentFirst := false }
  let s := { s with state := fun i j => if i < WIDTH ∧ j < HEIGHT then 0 else s.state i j }
  { s with state := fun i j => if i < WIDTH ∧ j = 0 then rowDraw i % 256 else s.state i j }

/-- The `switch(ID)` of `setup`: the chance to fall asleep per node (the tone
frequencies it also sets are left out). -/
def setupSleepChance (ID : Nat) (s : Node) : Node :=
  if ID = 0 then { s with sleepChance := 30 }
  else if ID = 1 then { s with sleepChance := 40 }
  else if ID = 2 then { s with sleepChance := 50 }
  else if ID = 3 then { s with sleepChance := 60 }
  else s

/-- The last statement of `setup`: node 0 starts the handshake and calls
`sonify()`, node 2 calls `triEnvelope.start()`. -/
def setupStart (ID : Nat) (s : Node) : Node :=
  if ID = 0 then
    let s := { s with sendingReadyMsg := true }
    sonify s
  else if ID = 2 then
    { s with envLog := s.envLog ++ [EnvStart.restart] }
  else s

/-- `setup()`.  The initialisation of the serial port, the LED hardware and
the audio engine is left out. -/
def setup (ID : Nat) (offsetDraw : Nat) (rowDraw : Nat → Nat) : Node :=
  let s := setupGrid offsetDraw rowDraw
  let s := display s
  let s := setupSleepChance ID s
  setupStart ID s

/-- The states node `ID` can reach: the state `setup` leaves, and from a
reachable state the state after one control tick, for any received bytes, any
answer of the timer and any draw. -/
inductive Reachable (ID : Nat) : Node → Prop where
  | setup (offsetDraw : Nat) (rowDraw : Nat → Nat) : Reachable ID (setup ID offsetDraw rowDraw)
  | tick (s : Node) (rx : List Nat) (ready : Bool) (r : Nat) :
      Reachable ID s → Reachable ID (updateControl ID s rx ready r)

/-! ## Concrete nodes -/

/-- A concrete node: generation 0, row 0 holds the bytes
`0x80 0x00 0x00 0x01`, everything else cleared. -/
def sampleNode : Node where
  state := fun i j => if j = 0 then (if i = 0 then 128 else if i = 3 then 1 else 0) else 0
  currentRow := 0
  generation := 0
  prevTri := 0
  offset := 1
  population := 0
  isDisplaying := true
  wasDisplaying := true
  sleepChance := 40
  nLeftBit := 0
  nRightBit := 0
  leftReceived := false
  rightReceived := false
  sendingReadyMsg := false
  sentFirst := false
  serialOut := []
  ledCols := fun _ => 0
  ledIntensity := 1
  envLog := []

/-- A concrete node in steady state: generation 9, so the current row is
row 1, which holds the bytes `0x01 0x00 0x00 0x80`; its first message has
been sent. -/
def steadyNode : Node where
  state := fun i j => if j = 1 then (if i = 0 then 1 else if i = 3 then 128 else 0) else 0
  currentRow := 1
  generation := 9
  prevTri := 0
  offset := 1
  population := 2
  isDisplaying := true
  wasDisplaying := true
  sleepChance := 40
  nLeftBit := 0
  nRightBit := 0
  leftReceived := false
  rightReceived := false
  sendingReadyMsg := false
  sentFirst := true
  serialOut := [4]
  ledCols := fun _ => 0
  ledIntensity := 1
  envLog := []

/-- A concrete node at a sleep checkpoint: generation 29 and offset 1, so
`(generation + offset) % 30 == 0`; `sleepChance` 40, active. -/
def checkpointNode : Node :=
  { sampleNode with generation := 29, currentRow := 5, offset := 1, sleepChance := 40,
                    isDisplaying := true }

/-- A concrete node whose sum `generation + offset` is 65536: generation
65535 and offset 1; `sleepChance` 40, active.  The 16-bit sum is 0. -/
def wrappedSumNode : Node :=
  { sampleNode with generation := 65535, currentRow := 7, offset := 1, sleepChance := 40,
                    isDisplaying := true }

/-- A concrete node whose sum `generation + offset` is 65550, a multiple of
30: generation 65534 and offset 16; `sleepChance` 40, active.  The 16-bit sum
is 14. -/
def wrappedMultipleNode : Node :=
  { sampleNode with generation := 65534, currentRow := 6, offset := 16, sleepChance := 40,
                    isDisplaying := true }

/-! ## Rows, cells and the ring -/

/-- The order in which `evolve` visits the cells, as (byte, bit) pairs. -/
def evolveCells : List (Nat × Nat) :=
  [(0, 7), (0, 6), (0, 5), (0, 4), (0, 3), (0, 2), (0, 1), (0, 0),
   (1, 7), (1, 6), (1, 5), (1, 4), (1, 3), (1, 2), (1, 1), (1, 0),
   (2, 7), (2, 6), (2, 5), (2, 4), (2, 3), (2, 2), (2, 1), (2, 0),
   (3, 7), (3, 6), (3, 5), (3, 4), (3, 3), (3, 2), (3, 1), (3, 0)]

/-- Cell `p` of history row `j`, counted from the left: bit `7 - (p mod 8)`
of byte `p / 8`. -/
def rowCell (s : Node) (j p : Nat) : Nat :=
  bitRead (s.state (p / 8) j) (7 - p % 8)

/-- Cell `p` of the node's current row. -/
def cell (s : Node) (p : Nat) : Nat :=
  rowCell s s.currentRow p

/-- One synchronous Rule 30 step of a cyclic row of `n` cells, as the
specification words it: new = left XOR (self OR right), the neighbours taken
cyclically. -/
def rule30Step (n : Nat) (row : Nat → Nat) (q : Nat) : Nat :=
  row ((q + n - 1) % n) ^^^ (row q ||| row ((q + 1) % n))

/-- The 128-cell row `R0 R1 R2 R3` of a ring of four nodes: cell `q` is cell
`q mod 32` of the current row of node `q / 32`. -/
def ringRow (nodes : Nat → Node) (q : Nat) : Nat :=
  cell (nodes (q / 32)) (q % 32)

/-- The byte node `i` publishes with `sendLeftRight`. -/
def published (nodes : Nat → Node) (i : Nat) : Nat :=
  leftRightMsg i (nodes i)

/-- Node `i` of the ring after `updateSerial` has read the bytes published by
nodes `(i-1) mod 4` and `(i+1) mod 4`, the left one first when `leftFirst`
is true and the right one first otherwise. -/
def exchange (nodes : Nat → Node) (leftFirst : Bool) (i : Nat) : Node :=
  let left := (mod ((i : Int) - 1) NUM_NODES).toNat
  let right := (mod ((i : Int) + 1) NUM_NODES).toNat
  updateSerial i (nodes i)
    (if leftFirst then [published nodes left, published nodes right]
     else [published nodes right, published nodes left])

/-- Cell `q` of the concatenation of the four rows written by `evolve`, run
on each node after the exchange; `r i` is the draw of `random(100)` on
node `i`. -/
def ringNext (nodes : Nat → Node) (leftFirst : Bool) (r : Nat → Nat) (q : Nat) : Nat :=
  rowCell (evolve (exchange nodes leftFirst (q / 32)) (r (q / 32)))
    (((nodes (q / 32)).generation + 1) % 8) (q % 32)

/-- A ring of four concrete nodes (IDs 0..3), at different generations. -/
def sampleRing (i : Nat) : Node :=
  if i = 0 then sampleNode
  else if i = 1 then steadyNode
  else if i = 2 then { sampleNode with state := fun k j => if j = 0 then 170 + k else 0 }
  else { steadyNode with state := fun k j => if j = 1 then 255 - 16 * k else 3 }

/-- The 256 bits of the grid in the order in which both `display` and
`detectTri` scan it: rows `j = 7` down to `0`, within a row the bytes
`i = 0 .. WIDTH-1`, within a byte the bits `b = 7` down to `0`. -/
def gridBits (st : Nat → Nat → Nat) : List Nat :=
  ([7, 6, 5, 4, 3, 2, 1, 0].map fun j =>
    ((List.range WIDTH).map fun i =>
      [7, 6, 5, 4, 3, 2, 1, 0].map fun b => bitRead (st i j) b).flatten).flatten

/-- The number of set bits in the grid. -/
def setBitCount (st : Nat → Nat → Nat) : Nat :=
  (gridBits st).countP (fun bit => bit ≠ 0)

/-- The length of the run of unset bits a sequence starts with. -/
def zeroPrefix : List Nat → Nat
  | [] => 0
  | bit :: bits => if bit = 0 then zeroPrefix bits + 1 else 0

/-- The length of the longest run of consecutive unset bits in a sequence:
the largest, over all positions, of the run of unset bits that starts
there. -/
def longestZeroRun : List Nat → Nat
  | [] => 0
  | bit :: bits => max (zeroPrefix (bit :: bits)) (longestZeroRun bits)

/-- A concrete node whose grid is all ones. -/
def allOnesNode : Node :=
  { sampleNode with state := fun _ _ => 255 }

/-- A concrete node whose grid is all zeros, nine generations after the last
trigger. -/
def allZerosNode : Node :=
  { steadyNode with state := fun _ _ => 0 }

/-- The rule table as the specification lists it: `{0,0,0,1,1,1,1,0}`. -/
def rule30Table : List Nat := [0, 0, 0, 1, 1, 1, 1, 0]

/-- The first message of `updateSerial`: on a valid normal message, a node
that is at generation 0 and has not sent yet sends its own boundary bits and
sets `sentFirst`.  This is the list of bytes that step writes. -/
def firstSendBytes (ID : Nat) (s : Node) : List Nat :=
  if s.generation = 0 ∧ s.sentFirst = false then [leftRightMsg ID s] else []

/-! ## Bit macros -/

/-- Every value `bitRead` returns is 0 or 1. -/
theorem bitRead_le_one (value bit : Nat) : bitRead value bit ≤ 1 := by
  unfold bitRead
  exact Nat.and_le_right

/-- The value of `bitRead` is the tested bit, as a number. -/
theorem bitRead_eq_testBit (value bit : Nat) :
    bitRead value bit = (value.testBit bit).toNat := by
  unfold bitRead
  rw [Nat.and_one_is_mod, Nat.shiftRight_eq_div_pow, Nat.toNat_testBit]

/-- Bits of a byte after `bitSet`. -/
theorem testBit_bitSet (x b c : Nat) (hc : c < 8) :
    (bitSet x b).testBit c = (x.testBit c || decide (b = c)) := by
  unfold bitSet
  rw [show (256 : Nat) = 2 ^ 8 from rfl, Nat.testBit_mod_two_pow, Nat.testBit_or,
    Nat.one_shiftLeft, Nat.testBit_two_pow]
  simp [hc]

/-- Bits of a byte after `bitClear`. -/
theorem testBit_bitClear (x b c : Nat) (hb : b < 8) (hc : c < 8) :
    (bitClear x b).testBit c = (x.testBit c && !decide (b = c)) := by
  unfold bitClear
  have h32 : (1 <<< b) % 4294967296 = 2 ^ b := by
    rw [Nat.one_shiftLeft]
    apply Nat.mod_eq_of_lt
    calc 2 ^ b < 2 ^ 8 := Nat.pow_lt_pow_right (by decide) hb
      _ < 4294967296 := by decide
  rw [h32, show (256 : Nat) = 2 ^ 8 from rfl, Nat.testBit_mod_two_pow, Nat.testBit_and,
    Nat.testBit_xor, show (4294967295 : Nat) = 2 ^ 32 - 1 from rfl, Nat.testBit_two_pow_sub_one,
    Nat.testBit_two_pow]
  have : c < 32 := by omega
  simp [hc, this]

/-- Reading bit `c` back after `bitWrite` of the bit value `n` at bit `b`: the
written value at `b`, the old bit elsewhere. -/
theorem bitRead_bitWrite (x b c n : Nat) (hb : b < 8) (hc : c < 8) (hn : n ≤ 1) :
    bitRead (bitWrite x b n) c = if c = b then n else bitRead x c := by
  rw [bitRead_eq_testBit, bitRead_eq_testBit]
  unfold bitWrite
  by_cases hcb : c = b
  · subst hcb
    interval_cases n <;> simp [testBit_bitSet, testBit_bitClear, hc]
  · have hbc : ¬ b = c := fun h => hcb h.symm
    interval_cases n <;> simp [testBit_bitSet, testBit_bitClear, hc, hb, hcb, hbc]

/-! ## The loops of `evolve` -/

/-- The nested loops of `evolve` visit the cells in the order `evolveCells`. -/
theorem evolveRow_eq_foldl (s : Node) :
    evolveRow s = evolveCells.foldl (fun s p => evolveCell s p.1 p.2) s := by
  have h : List.range WIDTH = [0, 1, 2, 3] := by decide
  unfold evolveRow evolveCells
  rw [h]
  simp only [List.foldl_cons, List.foldl_nil]

/-- The new bit is a bit. -/
theorem newBit_le_one (s : Node) (i b : Nat) : newBit s i b ≤ 1 :=
  bitRead_le_one _ _

/-- The new bit depends only on the boundary bits and on the current row. -/
theorem newBit_congr (s1 s2 : Node) (i b : Nat)
    (hL : s1.nLeftBit = s2.nLeftBit) (hR : s1.nRightBit = s2.nRightBit)
    (hst : ∀ k, s1.state k s1.currentRow = s2.state k s2.currentRow) :
    newBit s1 i b = newBit s2 i b := by
  simp only [newBit, hL, hR, hst]

/-- One cell update leaves every row other than row `(generation+1) % 8` alone. -/
theorem evolveCell_state_other (s : Node) (i b k j : Nat) (hj : j ≠ (s.generation + 1) % 8) :
    (evolveCell s i b).state k j = s.state k j := by
  simp [evolveCell, setState, hj]

/-- Bits of row `(generation+1) % 8` after one cell update. -/
theorem evolveCell_bit (s : Node) (i b k c : Nat) (hb : b < 8) (hc : c < 8) :
    bitRead ((evolveCell s i b).state k ((s.generation + 1) % 8)) c
      = if (k, c) = (i, b) then newBit s i b
        else bitRead (s.state k ((s.generation + 1) % 8)) c := by
  by_cases hk : k = i
  · subst hk
    simp only [evolveCell, setState, and_self, if_true, Prod.mk.injEq, true_and]
    exact bitRead_bitWrite _ _ _ _ hb hc (newBit_le_one s k b)
  · simp [evolveCell, setState, hk]

/-- Any run of cell updates, when the row being written is not the current
row: the scalars and the other rows are unchanged, and in the written row
exactly the visited bits hold their new value, computed from the state before
the run. -/
theorem foldl_evolveCell (L : List (Nat × Nat)) (hL : ∀ p ∈ L, p.2 < 8) (s : Node)
    (hrow : s.currentRow ≠ (s.generation + 1) % 8) :
    (L.foldl (fun s p => evolveCell s p.1 p.2) s).currentRow = s.currentRow
    ∧ (L.foldl (fun s p => evolveCell s p.1 p.2) s).generation = s.generation
    ∧ (L.foldl (fun s p => evolveCell s p.1 p.2) s).nLeftBit = s.nLeftBit
    ∧ (L.foldl (fun s p => evolveCell s p.1 p.2) s).nRightBit = s.nRightBit
    ∧ (∀ k j, j ≠ (s.generation + 1) % 8 →
        (L.foldl (fun s p => evolveCell s p.1 p.2) s).state k j = s.state k j)
    ∧ (∀ k c, c < 8 →
        bitRead ((L.foldl (fun s p => evolveCell s p.1 p.2) s).state k
            ((s.generation + 1) % 8)) c
          = if (k, c) ∈ L then newBit s k c
            else bitRead (s.state k ((s.generation + 1) % 8)) c) := by
  induction L generalizing s with
  | nil => simp
  | cons p L ih =>
    have hp : p.2 < 8 := hL p (List.mem_cons_self _ _)
    have hL' : ∀ q ∈ L, q.2 < 8 := fun q hq => hL q (List.mem_cons_of_mem _ hq)
    obtain ⟨h1, h2, h3, h4, h5, h6⟩ := ih hL' (evolveCell s p.1 p.2) hrow
    have hnb : ∀ k c, newBit (evolveCell s p.1 p.2) k c = newBit s k c := fun k c =>
      newBit_congr _ _ k c rfl rfl (fun k => evolveCell_state_other s p.1 p.2 k _ hrow)
    refine ⟨h1, h2, h3, h4, fun k j hj => ?_, fun k c hc => ?_⟩
    · rw [List.foldl_cons, h5 k j hj]
      exact evolveCell_state_other s p.1 p.2 k j hj
    · rw [List.foldl_cons]
      have h6' := h6 k c hc
      rw [hnb] at h6'
      have hbit := evolveCell_bit s p.1 p.2 k c hp hc
      rw [show (evolveCell s p.1 p.2).generation = s.generation from rfl] at h6'
      rw [h6', hbit]
      by_cases hm : (k, c) ∈ L
      · simp [hm]
      · by_cases he : (k, c) = p
        · subst he; simp
        · have he' : ¬ (k, c) = (p.1, p.2) := he
          simp [hm, he, he']

/-- The sleep/wake step of `evolve` does not touch the grid. -/
theorem evolve_state (s : Node) (r : Nat) : (evolve s r).state = (evolveRow s).state := by
  unfold evolve
  dsimp only
  split_ifs <;> rfl

/-- Every cell position 0..31 is visited by `evolve`. -/
theorem mem_evolveCells (p : Nat) (hp : p ≤ 31) : (p / 8, 7 - p % 8) ∈ evolveCells := by
  interval_cases p <;> decide

/-- Every visited bit index is below 8. -/
theorem evolveCells_bit_lt : ∀ p ∈ evolveCells, p.2 < 8 := by decide

/-- On bits the 8-bit truncation of the rule index does nothing. -/
theorem ruleLookup_bits (l s r : Nat) (hl : l ≤ 1) (hs : s ≤ 1) (hr : r ≤ 1) :
    ruleLookup l s r = bitRead RULE (4 * l + 2 * s + r) := by
  unfold ruleLookup
  dsimp only
  rw [Nat.mod_eq_of_lt (by omega)]

/-- A cell is a bit. -/
theorem cell_le_one (s : Node) (p : Nat) : cell s p ≤ 1 := bitRead_le_one _ _

/-- The neighbourhood `evolve` reads for cell position `p`, in terms of cell
positions. -/
theorem newBit_eq_ruleLookup (s : Node) (p : Nat) (hp : p ≤ 31) :
    newBit s (p / 8) (7 - p % 8)
      = ruleLookup (if p = 0 then s.nLeftBit else cell s (p - 1)) (cell s p)
          (if p = 31 then s.nRightBit else cell s (p + 1)) := by
  interval_cases p <;> rfl

/-- The bit `evolve` leaves at cell position `p` of row `(generation+1) % 8`,
whenever that row is not the current row. -/
theorem evolve_cell (s : Node) (r p : Nat) (hne : s.currentRow ≠ (s.generation + 1) % 8)
    (hL : s.nLeftBit ≤ 1) (hR : s.nRightBit ≤ 1) (hp : p ≤ 31) :
    rowCell (evolve s r) ((s.generation + 1) % 8) p
      = bitRead RULE
          (4 * (if p = 0 then s.nLeftBit else cell s (p - 1)) + 2 * cell s p
            + (if p = 31 then s.nRightBit else cell s (p + 1))) := by
  obtain ⟨-, -, -, -, -, h6⟩ := foldl_evolveCell evolveCells evolveCells_bit_lt s hne
  have hb : 7 - p % 8 < 8 := by omega
  unfold rowCell
  rw [evolve_state, evolveRow_eq_foldl, h6 _ _ hb, if_pos (mem_evolveCells p hp),
    newBit_eq_ruleLookup s p hp]
  apply ruleLookup_bits
  · split_ifs
    · exact hL
    · exact cell_le_one _ _
  · exact cell_le_one _ _
  · split_ifs
    · exact hR
    · exact cell_le_one _ _

/-! ## Lemmas on `updateSerial` -/

/-- Values of the helper `mod` on the arguments the ring uses. -/
theorem mod_neg_one : mod (-1) 4 = 3 := by decide

/-- A value of the helper `mod`. -/
theorem mod_zero : mod 0 4 = 0 := by decide

/-- A value of the helper `mod`. -/
theorem mod_one : mod 1 4 = 1 := by decide

/-- A value of the helper `mod`. -/
theorem mod_two : mod 2 4 = 2 := by decide

/-- A value of the helper `mod`. -/
theorem mod_three : mod 3 4 = 3 := by decide

/-- A value of the helper `mod`. -/
theorem mod_four : mod 4 4 = 0 := by decide

/-- A byte whose sender field `msg >> 2` is above 3 is written back out by
every node with ID in [0,3], through the last relay branch
`else if (incomingID != ID)`, and nothing else changes. -/
theorem updateSerial_invalid_sender (ID m : Nat) (s : Node) (hID : ID ≤ 3)
    (h16 : 16 ≤ m) (hne : m ≠ 129) :
    updateSerial ID s [m] = serialWrite s m := by
  have hdiv : m >>> 2 = m / 4 := by rw [Nat.shiftRight_eq_div_pow]
  have hv : ¬ m >>> 2 ≤ 3 := by rw [hdiv]; omega
  have hid : ¬ m >>> 2 = ID := by rw [hdiv]; omega
  simp [updateSerial, updateSerialMsg, hne, hv, hid]

/-- The fields `evolve` reads, after a byte from the left neighbour. -/
theorem updateSerialMsg_left (ID l r : Nat) (s : Node) (hID : ID ≤ 3) (hl : l ≤ 1)
    (hr : r ≤ 1) :
    (updateSerialMsg ID s (encodeMsg (mod ((ID : Int) - 1) NUM_NODES).toNat l r)).state = s.state
    ∧ (updateSerialMsg ID s (encodeMsg (mod ((ID : Int) - 1) NUM_NODES).toNat l r)).currentRow
        = s.currentRow
    ∧ (updateSerialMsg ID s (encodeMsg (mod ((ID : Int) - 1) NUM_NODES).toNat l r)).generation
        = s.generation
    ∧ (updateSerialMsg ID s (encodeMsg (mod ((ID : Int) - 1) NUM_NODES).toNat l r)).nLeftBit = r
    ∧ (updateSerialMsg ID s (encodeMsg (mod ((ID : Int) - 1) NUM_NODES).toNat l r)).nRightBit
        = s.nRightBit := by
  interval_cases ID <;> interval_cases l <;> interval_cases r <;>
    by_cases h : s.generation = 0 ∧ s.sentFirst = false <;>
    simp [updateSerialMsg, h, encodeMsg, NUM_NODES,
      serialWrite, sendLeftRight, bitRead, mod_neg_one, mod_zero, mod_one, mod_two, mod_three,
      mod_four]

/-- The fields `evolve` reads, after a byte from the right neighbour. -/
theorem updateSerialMsg_right (ID l r : Nat) (s : Node) (hID : ID ≤ 3) (hl : l ≤ 1)
    (hr : r ≤ 1) :
    (updateSerialMsg ID s (encodeMsg (mod ((ID : Int) + 1) NUM_NODES).toNat l r)).state = s.state
    ∧ (updateSerialMsg ID s (encodeMsg (mod ((ID : Int) + 1) NUM_NODES).toNat l r)).currentRow
        = s.currentRow
    ∧ (updateSerialMsg ID s (encodeMsg (mod ((ID : Int) + 1) NUM_NODES).toNat l r)).generation
        = s.generation
    ∧ (updateSerialMsg ID s (encodeMsg (mod ((ID : Int) + 1) NUM_NODES).toNat l r)).nLeftBit
        = s.nLeftBit
    ∧ (updateSerialMsg ID s (encodeMsg (mod ((ID : Int) + 1) NUM_NODES).toNat l r)).nRightBit
        = l := by
  interval_cases ID <;> interval_cases l <;> interval_cases r <;>
    by_cases h : s.generation = 0 ∧ s.sentFirst = false <;>
    simp [updateSerialMsg, h, encodeMsg, NUM_NODES,
      serialWrite, sendLeftRight, bitRead, mod_neg_one, mod_zero, mod_one, mod_two, mod_three,
      mod_four]

/-- After the exchange a node holds its own grid, the rightmost cell of its left
neighbour in `nLeftBit` and the leftmost cell of its right neighbour in
`nRightBit`. -/
theorem exchange_fields (nodes : Nat → Node) (lf : Bool) (i : Nat) (hi : i ≤ 3) :
    (exchange nodes lf i).state = (nodes i).state
    ∧ (exchange nodes lf i).currentRow = (nodes i).currentRow
    ∧ (exchange nodes lf i).generation = (nodes i).generation
    ∧ (exchange nodes lf i).nLeftBit = cell (nodes (mod ((i : Int) - 1) NUM_NODES).toNat) 31
    ∧ (exchange nodes lf i).nRightBit = cell (nodes (mod ((i : Int) + 1) NUM_NODES).toNat) 0 := by
  cases lf
  · obtain ⟨a1, a2, a3, a4, a5⟩ := updateSerialMsg_right i _ _ (nodes i) hi
      (bitRead_le_one ((nodes (mod ((i : Int) + 1) NUM_NODES).toNat).state 0
        (nodes (mod ((i : Int) + 1) NUM_NODES).toNat).currentRow) 7)
      (bitRead_le_one ((nodes (mod ((i : Int) + 1) NUM_NODES).toNat).state (WIDTH - 1)
        (nodes (mod ((i : Int) + 1) NUM_NODES).toNat).currentRow) 0)
    obtain ⟨b1, b2, b3, b4, b5⟩ := updateSerialMsg_left i _ _
      (updateSerialMsg i (nodes i) (published nodes (mod ((i : Int) + 1) NUM_NODES).toNat)) hi
      (bitRead_le_one ((nodes (mod ((i : Int) - 1) NUM_NODES).toNat).state 0
        (nodes (mod ((i : Int) - 1) NUM_NODES).toNat).currentRow) 7)
      (bitRead_le_one ((nodes (mod ((i : Int) - 1) NUM_NODES).toNat).state (WIDTH - 1)
        (nodes (mod ((i : Int) - 1) NUM_NODES).toNat).currentRow) 0)
    exact ⟨b1.trans a1, b2.trans a2, b3.trans a3, b4, b5.trans a5⟩
  · obtain ⟨a1, a2, a3, a4, a5⟩ := updateSerialMsg_left i _ _ (nodes i) hi
      (bitRead_le_one ((nodes (mod ((i : Int) - 1) NUM_NODES).toNat).state 0
        (nodes (mod ((i : Int) - 1) NUM_NODES).toNat).currentRow) 7)
      (bitRead_le_one ((nodes (mod ((i : Int) - 1) NUM_NODES).toNat).state (WIDTH - 1)
        (nodes (mod ((i : Int) - 1) NUM_NODES).toNat).currentRow) 0)
    obtain ⟨b1, b2, b3, b4, b5⟩ := updateSerialMsg_right i _ _
      (updateSerialMsg i (nodes i) (published nodes (mod ((i : Int) - 1) NUM_NODES).toNat)) hi
      (bitRead_le_one ((nodes (mod ((i : Int) + 1) NUM_NODES).toNat).state 0
        (nodes (mod ((i : Int) + 1) NUM_NODES).toNat).currentRow) 7)
      (bitRead_le_one ((nodes (mod ((i : Int) + 1) NUM_NODES).toNat).state (WIDTH - 1)
        (nodes (mod ((i : Int) + 1) NUM_NODES).toNat).currentRow) 0)
    exact ⟨b1.trans a1, b2.trans a2, b3.trans a3, b4.trans a4, b5⟩

/-- On bits, the lookup in `RULE = 30` is left XOR (self OR right). -/
theorem rule30_xor_or (l s r : Nat) (hl : l ≤ 1) (hs : s ≤ 1) (hr : r ≤ 1) :
    bitRead RULE (4 * l + 2 * s + r) = l ^^^ (s ||| r) := by
  interval_cases l <;> interval_cases s <;> interval_cases r <;> decide

/-- The left neighbour `mod(ID-1, NUM_NODES)` of a node of the ring. -/
theorem mod_pred_toNat (i : Nat) (hi : i ≤ 3) :
    (mod ((i : Int) - 1) NUM_NODES).toNat = (i + 3) % 4 := by
  interval_cases i <;> decide

/-- The right neighbour `mod(ID+1, NUM_NODES)` of a node of the ring. -/
theorem mod_succ_toNat (i : Nat) (hi : i ≤ 3) :
    (mod ((i : Int) + 1) NUM_NODES).toNat = (i + 1) % 4 := by
  interval_cases i <;> decide

/-! ## The ring of four nodes -/

/-- C1: four-node ring equivalence.  Take four nodes with IDs 0..3, each
with `currentRow = generation mod 8` and an arbitrary grid.  Each node
publishes the byte of `sendLeftRight`; node i runs `updateSerial` on the bytes
published by nodes (i-1) mod 4 and (i+1) mod 4 (in either order) and then
`evolve`.  The concatenation of the four rows written by `evolve` is one
synchronous Rule 30 step, new = left XOR (self OR right), of the 128-cell
cyclic row R0 R1 R2 R3. -/
theorem ring_rule30 (nodes : Nat → Node) (leftFirst : Bool) (r : Nat → Nat)
    (hrow : ∀ i, i < 4 → (nodes i).currentRow = (nodes i).generation % 8)
    (q : Nat) (hq : q < 128) :
    ringNext nodes leftFirst r q = rule30Step 128 (ringRow nodes) q := by
  have hi : q / 32 ≤ 3 := by omega
  have hp : q % 32 ≤ 31 := by omega
  obtain ⟨e1, e2, e3, e4, e5⟩ := exchange_fields nodes leftFirst (q / 32) hi
  have hr := hrow (q / 32) (by omega)
  have hne : (exchange nodes leftFirst (q / 32)).currentRow
      ≠ ((exchange nodes leftFirst (q / 32)).generation + 1) % 8 := by
    rw [e2, e3]; omega
  have hcell : ∀ p, cell (exchange nodes leftFirst (q / 32)) p = cell (nodes (q / 32)) p := by
    intro p
    simp only [cell, rowCell, e1, e2]
  have hL : (exchange nodes leftFirst (q / 32)).nLeftBit ≤ 1 := by
    rw [e4]; exact cell_le_one _ _
  have hR : (exchange nodes leftFirst (q / 32)).nRightBit ≤ 1 := by
    rw [e5]; exact cell_le_one _ _
  have key := evolve_cell (exchange nodes leftFirst (q / 32)) (r (q / 32)) (q % 32) hne hL hR hp
  rw [e3] at key
  unfold ringNext
  rw [key, rule30_xor_or _ _ _ (by split_ifs <;> first | exact hL | exact cell_le_one _ _)
    (cell_le_one _ _) (by split_ifs <;> first | exact hR | exact cell_le_one _ _)]
  simp only [hcell, e4, e5, mod_pred_toNat _ hi, mod_succ_toNat _ hi]
  unfold rule30Step ringRow
  have hleft : (if q % 32 = 0 then cell (nodes ((q / 32 + 3) % 4)) 31
      else cell (nodes (q / 32)) (q % 32 - 1))
      = cell (nodes ((q + 128 - 1) % 128 / 32)) ((q + 128 - 1) % 128 % 32) := by
    split_ifs with h0
    · have a : (q + 128 - 1) % 128 / 32 = (q / 32 + 3) % 4 := by omega
      have b : (q + 128 - 1) % 128 % 32 = 31 := by omega
      rw [a, b]
    · have a : (q + 128 - 1) % 128 / 32 = q / 32 := by omega
      have b : (q + 128 - 1) % 128 % 32 = q % 32 - 1 := by omega
      rw [a, b]
  have hright : (if q % 32 = 31 then cell (nodes ((q / 32 + 1) % 4)) 0
      else cell (nodes (q / 32)) (q % 32 + 1))
      = cell (nodes ((q + 1) % 128 / 32)) ((q + 1) % 128 % 32) := by
    split_ifs with h0
    · have a : (q + 1) % 128 / 32 = (q / 32 + 1) % 4 := by omega
      have b : (q + 1) % 128 % 32 = 0 := by omega
      rw [a, b]
    · have a : (q + 1) % 128 / 32 = q / 32 := by omega
      have b : (q + 1) % 128 % 32 = q % 32 + 1 := by omega
      rw [a, b]
  rw [hleft, hright]


/-- Witness for C1: the ring `sampleRing`, cell 32 (the leftmost cell of
node 1, whose left neighbour cell lives on node 0). -/
theorem ring_rule30_witness :
    ((∀ i, i < 4 → (sampleRing i).currentRow = (sampleRing i).generation % 8) ∧ 32 < 128)
    ∧ ringNext sampleRing true (fun _ => 0) 32 = rule30Step 128 (ringRow sampleRing) 32 :=
  ⟨by decide, ring_rule30 sampleRing true (fun _ => 0) (by decide) 32 (by decide)⟩

/-! ## The automaton step -/

/-- C2: `evolve` computes the next generation cell by cell from the current
one.  In a state with `currentRow = generation mod 8` and boundary bits in
{0,1}, for every cell position p in 0..31 the bit at position p (byte p/8,
bit 7 - p mod 8) of row (generation+1) mod 8 after `evolve` is bit
`4*left + 2*self + right` of the rule constant 30, where self is cell p of the
current row, left is `nLeftBit` for p = 0 and cell p-1 otherwise, right is
`nRightBit` for p = 31 and cell p+1 otherwise. -/
theorem evolve_next_generation (s : Node) (r p : Nat)
    (hrow : s.currentRow = s.generation % 8)
    (hL : s.nLeftBit ≤ 1) (hR : s.nRightBit ≤ 1) (hp : p ≤ 31) :
    bitRead ((evolve s r).state (p / 8) ((s.generation + 1) % 8)) (7 - p % 8)
      = bitRead RULE
          (4 * (if p = 0 then s.nLeftBit else cell s (p - 1)) + 2 * cell s p
            + (if p = 31 then s.nRightBit else cell s (p + 1))) :=
  evolve_cell s r p (by omega) hL hR hp

/-- Witness for C2: `steadyNode` (generation 9, current row 1) at cell
position 8, the first cell of the second byte. -/
theorem evolve_next_generation_witness :
    (steadyNode.currentRow = steadyNode.generation % 8
      ∧ steadyNode.nLeftBit ≤ 1 ∧ steadyNode.nRightBit ≤ 1 ∧ 8 ≤ 31)
    ∧ bitRead ((evolve steadyNode 0).state (8 / 8) ((steadyNode.generation + 1) % 8)) (7 - 8 % 8)
      = bitRead RULE
          (4 * (if 8 = 0 then steadyNode.nLeftBit else cell steadyNode (8 - 1))
            + 2 * cell steadyNode 8
            + (if 8 = 31 then steadyNode.nRightBit else cell steadyNode (8 + 1))) :=
  ⟨by decide, evolve_next_generation steadyNode 0 8 (by decide) (by decide) (by decide)
    (by decide)⟩

/-- A hand-computed fixture: from the row `0x80 0x00 0x00 0x01` with both
boundary bits 0, `evolve` writes the row `0xC0 0x00 0x00 0x03` into row 1 and
leaves row 0 as it was. -/
theorem evolve_sampleNode_row :
    (List.range 4).map (fun i => (evolve sampleNode 0).state i 1) = [192, 0, 0, 3]
    ∧ (List.range 4).map (fun i => (evolve sampleNode 0).state i 0) = [128, 0, 0, 1] := by
  decide

/-! ## The rule table -/

/-- C3 (as stated, refuted): with left = 0, self = 0, right = 1 the lookup
`bitRead(RULE, 1)` is 1, while entry 1 of `{0,0,0,1,1,1,1,0}` counted from its
first entry is 0. -/
theorem ruleLookup_ne_table_forward :
    ruleLookup 0 0 1 ≠ rule30Table.getD (4 * 0 + 2 * 0 + 1) 0 := by
  decide

/-- C3 (amended): for all bits l, s, r the lookup `bitRead(RULE, 4l+2s+r)`
equals entry `7 - (4l+2s+r)` of the table `{0,0,0,1,1,1,1,0}`: the table is
listed from index 7 down to index 0. -/
theorem ruleLookup_eq_table_reversed (l s r : Nat) (hl : l ≤ 1) (hs : s ≤ 1) (hr : r ≤ 1) :
    ruleLookup l s r = rule30Table.getD (7 - (4 * l + 2 * s + r)) 0 := by
  interval_cases l <;> interval_cases s <;> interval_cases r <;> decide

/-- Witness for C3 (amended) at l = 1, s = 0, r = 0. -/
theorem ruleLookup_eq_table_reversed_witness :
    (1 ≤ 1 ∧ 0 ≤ 1 ∧ 0 ≤ 1) ∧ ruleLookup 1 0 0 = rule30Table.getD (7 - (4 * 1 + 2 * 0 + 0)) 0 :=
  ⟨by decide, ruleLookup_eq_table_reversed 1 0 0 (by decide) (by decide) (by decide)⟩

/-! ## The message codec -/

/-- C4: codec round trip.  For id in [0,3] and bits l, r the byte
`(id << 2) + (l << 1) + r` equals `(id << 2) | (l << 1) | r`; its sender
field `m >> 2` is id, its bit 1 is l and its bit 0 is r; and `sendLeftRight`
on node id writes exactly that byte for the leftmost and rightmost cells of
its current row. -/
theorem codec_round_trip (id l r : Nat) (hid : id ≤ 3) (hl : l ≤ 1) (hr : r ≤ 1) :
    encodeMsg id l r = ((id <<< 2) ||| (l <<< 1) ||| r)
    ∧ encodeMsg id l r >>> 2 = id
    ∧ bitRead (encodeMsg id l r) 1 = l
    ∧ bitRead (encodeMsg id l r) 0 = r
    ∧ ∀ s : Node, (sendLeftRight id s).serialOut = s.serialOut ++
        [encodeMsg id (bitRead (s.state 0 s.currentRow) 7)
          (bitRead (s.state 3 s.currentRow) 0)] := by
  refine ⟨?_, ?_, ?_, ?_, fun s => rfl⟩ <;>
    interval_cases id <;> interval_cases l <;> interval_cases r <;> decide

/-- Witness for C4 at id = 2, l = 1, r = 0 (the byte 10). -/
theorem codec_round_trip_witness :
    (2 ≤ 3 ∧ 1 ≤ 1 ∧ 0 ≤ 1)
    ∧ encodeMsg 2 1 0 = ((2 <<< 2) ||| (1 <<< 1) ||| 0)
    ∧ encodeMsg 2 1 0 >>> 2 = 2
    ∧ bitRead (encodeMsg 2 1 0) 1 = 1
    ∧ bitRead (encodeMsg 2 1 0) 0 = 0
    ∧ ∀ s : Node, (sendLeftRight 2 s).serialOut = s.serialOut ++
        [encodeMsg 2 (bitRead (s.state 0 s.currentRow) 7)
          (bitRead (s.state 3 s.currentRow) 0)] :=
  ⟨by decide, codec_round_trip 2 1 0 (by decide) (by decide) (by decide)⟩

/-- C5: the ready byte 129 is never produced by the normal encoding.  For id
in [0,3] and bits l, r the encoded byte is at most 15, hence not 129; the
byte `sendLeftRight` builds on node id is such a byte; and `updateSerial`
handles the encoded byte in its normal-message branch, which leaves
`sendingReadyMsg` alone. -/
theorem sentinel_not_encoded (id l r : Nat) (hid : id ≤ 3) (hl : l ≤ 1) (hr : r ≤ 1) :
    encodeMsg id l r ≤ 15
    ∧ encodeMsg id l r ≠ 129
    ∧ (∀ s : Node, leftRightMsg id s ≤ 15 ∧ leftRightMsg id s ≠ 129)
    ∧ ∀ (ID : Nat) (s : Node),
        (updateSerial ID s [encodeMsg id l r]).sendingReadyMsg = s.sendingReadyMsg := by
  have key : ∀ l r : Nat, l ≤ 1 → r ≤ 1 → encodeMsg id l r ≤ 15 := by
    intro l r hl hr
    interval_cases id <;> interval_cases l <;> interval_cases r <;> decide
  have h15 := key l r hl hr
  refine ⟨h15, by omega, fun s => ?_, fun ID s => ?_⟩
  · have h : leftRightMsg id s ≤ 15 := key _ _ (bitRead_le_one (s.state 0 s.currentRow) 7)
      (bitRead_le_one (s.state (WIDTH - 1) s.currentRow) 0)
    exact ⟨h, by omega⟩
  · have hne : encodeMsg id l r ≠ 129 := by omega
    simp only [updateSerial, List.foldl_cons, List.foldl_nil, updateSerialMsg, if_neg hne]
    split_ifs <;> rfl

/-- Witness for C5 at id = 3, l = 1, r = 1 (the largest encoded byte, 15). -/
theorem sentinel_not_encoded_witness :
    (3 ≤ 3 ∧ 1 ≤ 1 ∧ 1 ≤ 1)
    ∧ encodeMsg 3 1 1 ≤ 15
    ∧ encodeMsg 3 1 1 ≠ 129
    ∧ (∀ s : Node, leftRightMsg 3 s ≤ 15 ∧ leftRightMsg 3 s ≠ 129)
    ∧ ∀ (ID : Nat) (s : Node),
        (updateSerial ID s [encodeMsg 3 1 1]).sendingReadyMsg = s.sendingReadyMsg :=
  ⟨by decide, sentinel_not_encoded 3 1 1 (by decide) (by decide) (by decide)⟩

/-! ## `updateSerial` on one received byte -/

/-- C6 (as stated, refuted): node 0 at generation 0 with `sentFirst` false
receives the byte 3, whose sender field is 0, its own ID.  Its first-message
step writes its own exchange byte, which is again 3: the byte is written back
out by its own sender. -/
theorem own_message_written_again :
    3 >>> 2 = 0 ∧ (updateSerial 0 sampleNode [3]).serialOut = sampleNode.serialOut ++ [3] := by
  decide

/-- C6 (amended): ring circuit.  For a normal message m with sender field k
in [0,3], each of the nodes (k+1) mod 4, (k+2) mod 4, (k+3) mod 4 writes m
back out unchanged as its last byte (three relay hops).  Node k itself never
relays m: the only byte it can write is its own first exchange message, which
is due only at generation 0 with `sentFirst` false; in every other state it
writes nothing and changes nothing. -/
theorem ring_circuit (k m : Nat) (s : Node) (hk : k ≤ 3) (hm : m >>> 2 = k) :
    (updateSerial ((k + 1) % 4) s [m]).serialOut
        = s.serialOut ++ firstSendBytes ((k + 1) % 4) s ++ [m]
    ∧ (updateSerial ((k + 2) % 4) s [m]).serialOut
        = s.serialOut ++ firstSendBytes ((k + 2) % 4) s ++ [m]
    ∧ (updateSerial ((k + 3) % 4) s [m]).serialOut
        = s.serialOut ++ firstSendBytes ((k + 3) % 4) s ++ [m]
    ∧ (updateSerial k s [m]).serialOut = s.serialOut ++ firstSendBytes k s
    ∧ (¬ (s.generation = 0 ∧ s.sentFirst = false) → updateSerial k s [m] = s) := by
  have hdiv : m >>> 2 = m / 4 := by rw [Nat.shiftRight_eq_div_pow]
  rw [hdiv] at hm
  have hlo : 4 * k ≤ m := by omega
  have hhi : m ≤ 4 * k + 3 := by omega
  by_cases h : s.generation = 0 ∧ s.sentFirst = false <;>
    interval_cases k <;> interval_cases m <;>
    simp [updateSerial, updateSerialMsg, firstSendBytes, h, NUM_NODES,
      serialWrite, sendLeftRight, mod_neg_one, mod_zero, mod_one, mod_two, mod_three,
      mod_four]

/-- Witness for C6 (amended): the byte 6 = encode(1, 1, 0), sent by node 1,
received by nodes in steady state. -/
theorem ring_circuit_witness :
    (1 ≤ 3 ∧ 6 >>> 2 = 1)
    ∧ (updateSerial ((1 + 1) % 4) steadyNode [6]).serialOut
        = steadyNode.serialOut ++ firstSendBytes ((1 + 1) % 4) steadyNode ++ [6]
    ∧ (updateSerial ((1 + 2) % 4) steadyNode [6]).serialOut
        = steadyNode.serialOut ++ firstSendBytes ((1 + 2) % 4) steadyNode ++ [6]
    ∧ (updateSerial ((1 + 3) % 4) steadyNode [6]).serialOut
        = steadyNode.serialOut ++ firstSendBytes ((1 + 3) % 4) steadyNode ++ [6]
    ∧ (updateSerial 1 steadyNode [6]).serialOut
        = steadyNode.serialOut ++ firstSendBytes 1 steadyNode
    ∧ (¬ (steadyNode.generation = 0 ∧ steadyNode.sentFirst = false) →
        updateSerial 1 steadyNode [6] = steadyNode) :=
  ⟨by decide, ring_circuit 1 6 steadyNode (by decide) (by decide)⟩

/-- C7 (the code at the failing input): node 1 receives the byte 16, whose
sender field is 4.  The byte is written back out. -/
theorem malformed_byte_relayed :
    16 >>> 2 = 4 ∧ (updateSerial 1 sampleNode [16]).serialOut = sampleNode.serialOut ++ [16] :=
  ⟨by decide, congrArg Node.serialOut
    (updateSerial_invalid_sender 1 16 sampleNode (by decide) (by decide) (by decide))⟩

/-- C8: left-neighbour extraction.  On the byte encoding
(sender = (ID-1) mod 4, left bit l, right bit r) a node with ID in [0,3]
ends with `nLeftBit = r` and `leftReceived` true, leaves `nRightBit` and
`rightReceived` as they were, and writes the byte back out unchanged as the
last byte (after its own first message, if that was still due). -/
theorem left_neighbour_extraction (ID l r : Nat) (s : Node)
    (hID : ID ≤ 3) (hl : l ≤ 1) (hr : r ≤ 1) :
    (updateSerial ID s [encodeMsg (mod ((ID : Int) - 1) NUM_NODES).toNat l r]).nLeftBit = r
    ∧ (updateSerial ID s [encodeMsg (mod ((ID : Int) - 1) NUM_NODES).toNat l r]).leftReceived
        = true
    ∧ (updateSerial ID s [encodeMsg (mod ((ID : Int) - 1) NUM_NODES).toNat l r]).nRightBit
        = s.nRightBit
    ∧ (updateSerial ID s [encodeMsg (mod ((ID : Int) - 1) NUM_NODES).toNat l r]).rightReceived
        = s.rightReceived
    ∧ (updateSerial ID s [encodeMsg (mod ((ID : Int) - 1) NUM_NODES).toNat l r]).serialOut
        = s.serialOut ++ firstSendBytes ID s
          ++ [encodeMsg (mod ((ID : Int) - 1) NUM_NODES).toNat l r] := by
  interval_cases ID <;> interval_cases l <;> interval_cases r <;>
    by_cases h : s.generation = 0 ∧ s.sentFirst = false <;>
    simp [updateSerial, updateSerialMsg, firstSendBytes, h, encodeMsg, NUM_NODES,
      serialWrite, sendLeftRight, bitRead, mod_neg_one, mod_zero, mod_one, mod_two, mod_three,
      mod_four]

/-- Witness for C8: node 0 receives the byte 13 = encode(3, 0, 1) from its
left neighbour 3. -/
theorem left_neighbour_extraction_witness :
    (0 ≤ 3 ∧ 0 ≤ 1 ∧ 1 ≤ 1)
    ∧ (updateSerial 0 sampleNode
        [encodeMsg (mod (((0 : Nat) : Int) - 1) NUM_NODES).toNat 0 1]).nLeftBit = 1
    ∧ (updateSerial 0 sampleNode
        [encodeMsg (mod (((0 : Nat) : Int) - 1) NUM_NODES).toNat 0 1]).leftReceived = true
    ∧ (updateSerial 0 sampleNode
        [encodeMsg (mod (((0 : Nat) : Int) - 1) NUM_NODES).toNat 0 1]).nRightBit
        = sampleNode.nRightBit
    ∧ (updateSerial 0 sampleNode
        [encodeMsg (mod (((0 : Nat) : Int) - 1) NUM_NODES).toNat 0 1]).rightReceived
        = sampleNode.rightReceived
    ∧ (updateSerial 0 sampleNode
        [encodeMsg (mod (((0 : Nat) : Int) - 1) NUM_NODES).toNat 0 1]).serialOut
        = sampleNode.serialOut ++ firstSendBytes 0 sampleNode
          ++ [encodeMsg (mod (((0 : Nat) : Int) - 1) NUM_NODES).toNat 0 1] :=
  ⟨by decide, left_neighbour_extraction 0 0 1 sampleNode (by decide) (by decide) (by decide)⟩

/-- C9: right-neighbour extraction.  On the byte encoding
(sender = (ID+1) mod 4, left bit l, right bit r) a node with ID in [0,3]
ends with `nRightBit = l` and `rightReceived` true, leaves `nLeftBit` and
`leftReceived` as they were, and writes the byte back out unchanged as the
last byte (after its own first message, if that was still due). -/
theorem right_neighbour_extraction (ID l r : Nat) (s : Node)
    (hID : ID ≤ 3) (hl : l ≤ 1) (hr : r ≤ 1) :
    (updateSerial ID s [encodeMsg (mod ((ID : Int) + 1) NUM_NODES).toNat l r]).nRightBit = l
    ∧ (updateSerial ID s [encodeMsg (mod ((ID : Int) + 1) NUM_NODES).toNat l r]).rightReceived
        = true
    ∧ (updateSerial ID s [encodeMsg (mod ((ID : Int) + 1) NUM_NODES).toNat l r]).nLeftBit
        = s.nLeftBit
    ∧ (updateSerial ID s [encodeMsg (mod ((ID : Int) + 1) NUM_NODES).toNat l r]).leftReceived
        = s.leftReceived
    ∧ (updateSerial ID s [encodeMsg (mod ((ID : Int) + 1) NUM_NODES).toNat l r]).serialOut
        = s.serialOut ++ firstSendBytes ID s
          ++ [encodeMsg (mod ((ID : Int) + 1) NUM_NODES).toNat l r] := by
  interval_cases ID <;> interval_cases l <;> interval_cases r <;>
    by_cases h : s.generation = 0 ∧ s.sentFirst = false <;>
    simp [updateSerial, updateSerialMsg, firstSendBytes, h, encodeMsg, NUM_NODES,
      serialWrite, sendLeftRight, bitRead, mod_neg_one, mod_zero, mod_one, mod_two, mod_three,
      mod_four]

/-- Witness for C9: node 3 receives the byte 2 = encode(0, 1, 0) from its
right neighbour 0. -/
theorem right_neighbour_extraction_witness :
    (3 ≤ 3 ∧ 1 ≤ 1 ∧ 0 ≤ 1)
    ∧ (updateSerial 3 sampleNode
        [encodeMsg (mod (((3 : Nat) : Int) + 1) NUM_NODES).toNat 1 0]).nRightBit = 1
    ∧ (updateSerial 3 sampleNode
        [encodeMsg (mod (((3 : Nat) : Int) + 1) NUM_NODES).toNat 1 0]).rightReceived = true
    ∧ (updateSerial 3 sampleNode
        [encodeMsg (mod (((3 : Nat) : Int) + 1) NUM_NODES).toNat 1 0]).nLeftBit
        = sampleNode.nLeftBit
    ∧ (updateSerial 3 sampleNode
        [encodeMsg (mod (((3 : Nat) : Int) + 1) NUM_NODES).toNat 1 0]).leftReceived
        = sampleNode.leftReceived
    ∧ (updateSerial 3 sampleNode
        [encodeMsg (mod (((3 : Nat) : Int) + 1) NUM_NODES).toNat 1 0]).serialOut
        = sampleNode.serialOut ++ firstSendBytes 3 sampleNode
          ++ [encodeMsg (mod (((3 : Nat) : Int) + 1) NUM_NODES).toNat 1 0] :=
  ⟨by decide, right_neighbour_extraction 3 1 0 sampleNode (by decide) (by decide) (by decide)⟩

/-- C10: sentinel handling.  On the byte 129 a node with ID 0 clears
`sendingReadyMsg` and writes exactly one byte, its own exchange message
`(0 << 2) + (leftmost bit << 1) + rightmost bit`, which is not 129; a node
with ID 1, 2 or 3 writes exactly the byte 129 and changes nothing else. -/
theorem sentinel_handling (s : Node) :
    (updateSerial 0 s [129]).sendingReadyMsg = false
    ∧ (updateSerial 0 s [129]).serialOut = s.serialOut ++
        [(0 <<< 2) + (bitRead (s.state 0 s.currentRow) 7 <<< 1)
          + bitRead (s.state 3 s.currentRow) 0]
    ∧ (0 <<< 2) + (bitRead (s.state 0 s.currentRow) 7 <<< 1)
          + bitRead (s.state 3 s.currentRow) 0 ≠ 129
    ∧ updateSerial 1 s [129] = { s with serialOut := s.serialOut ++ [129] }
    ∧ updateSerial 2 s [129] = { s with serialOut := s.serialOut ++ [129] }
    ∧ updateSerial 3 s [129] = { s with serialOut := s.serialOut ++ [129] } := by
  have hl := bitRead_le_one (s.state 0 s.currentRow) 7
  have hr := bitRead_le_one (s.state 3 s.currentRow) 0
  have hsh : bitRead (s.state 0 s.currentRow) 7 <<< 1
      = 2 * bitRead (s.state 0 s.currentRow) 7 := by
    rw [Nat.shiftLeft_eq]; omega
  refine ⟨rfl, ?_, ?_, rfl, rfl, rfl⟩
  · show s.serialOut ++ [leftRightMsg 0 { s with sendingReadyMsg := false }] = _
    have : leftRightMsg 0 { s with sendingReadyMsg := false }
        = (0 <<< 2) + (bitRead (s.state 0 s.currentRow) 7 <<< 1)
          + bitRead (s.state 3 s.currentRow) 0 := by
      show ((0 <<< 2) + (bitRead (s.state 0 s.currentRow) 7 <<< 1)
          + bitRead (s.state 3 s.currentRow) 0) % 256 = _
      rw [hsh]
      apply Nat.mod_eq_of_lt
      simp only [Nat.zero_shiftLeft]
      omega
    rw [this]
  · rw [hsh]
    simp only [Nat.zero_shiftLeft]
    omega

/-! ## Frames of the loops -/

/-- A fold keeps every property its step keeps. -/
theorem foldl_keeps {α β : Type} (P : β → Prop) (f : β → α → β)
    (hf : ∀ s a, P s → P (f s a)) (l : List α) (s : β) (hs : P s) : P (l.foldl f s) := by
  induction l generalizing s with
  | nil => exact hs
  | cons a l ih => exact ih (f s a) (hf s a hs)

/-- Any run of cell updates changes the grid and nothing else. -/
theorem foldl_evolveCell_frame (L : List (Nat × Nat)) (s : Node) :
    L.foldl (fun s p => evolveCell s p.1 p.2) s
      = { s with state := (L.foldl (fun s p => evolveCell s p.1 p.2) s).state } :=
  foldl_keeps (fun t => t = { s with state := t.state })
    (fun t p => evolveCell t p.1 p.2) (fun t p ht => by rw [ht]; rfl) L s rfl

/-- The loops of `evolve` change the grid and nothing else. -/
theorem evolveRow_frame (s : Node) : evolveRow s = { s with state := (evolveRow s).state } := by
  rw [evolveRow_eq_foldl]
  exact foldl_evolveCell_frame evolveCells s

/-- Fields of `evolve`: everything but the grid and `isDisplaying` is unchanged. -/
theorem evolve_frame (s : Node) (r : Nat) :
    evolve s r = { s with state := (evolve s r).state,
                          isDisplaying := (evolve s r).isDisplaying } := by
  have h := evolveRow_frame s
  unfold evolve
  dsimp only
  split_ifs <;> (rw [h])

/-! ## Display coordinates -/

/-- C20: display coordinates are in bounds and scroll correctly.  For
`currentRow` in [0,7], byte i in [0,3], bit b in [0,7] and buffer row j in
[0,7], `display` gives `setPixel` the arguments x = (7-b) + 8i, in [0,31], and
y = (j - currentRow - 1) mod 8, in [0,7]; j to y is a permutation of 0..7
(injective and onto) with y = 7 for j = `currentRow`; the index
`(7-y) + (x/8)*8` into `cols` is in [0,31], inside the 32 bytes allocated for
4 devices; and for a set bit the loop body calls `setPixel` with exactly these
two values (the conversion to `byte` changes nothing). -/
theorem display_coordinates (currentRow i b j : Nat)
    (hc : currentRow ≤ 7) (hi : i ≤ 3) (hb : b ≤ 7) (hj : j ≤ 7) :
    pixelX i b = (((7 - b) + 8 * i : Nat) : Int)
    ∧ 0 ≤ pixelX i b ∧ pixelX i b ≤ 31
    ∧ pixelY currentRow j = ((j : Int) - (currentRow : Int) - 1) % 8
    ∧ 0 ≤ pixelY currentRow j ∧ pixelY currentRow j ≤ 7
    ∧ pixelY currentRow currentRow = 7
    ∧ (∀ j2, j2 ≤ 7 → pixelY currentRow j2 = pixelY currentRow j → j2 = j)
    ∧ (∀ y : Nat, y ≤ 7 → ∃ j2, j2 ≤ 7 ∧ pixelY currentRow j2 = (y : Int))
    ∧ 0 ≤ colIndex (pixelX i b).toNat (pixelY currentRow j).toNat
    ∧ colIndex (pixelX i b).toNat (pixelY currentRow j).toNat < 32
    ∧ ∀ s : Node, s.currentRow = currentRow → bitRead (s.state i j) b ≠ 0 →
        (displayCell s j i b).ledCols
          = setPixel s.ledCols (pixelX i b).toNat (pixelY currentRow j).toNat := by
  have hY : ∀ j2 : Nat, j2 ≤ 7 →
      pixelY currentRow j2 = ((j2 : Int) - (currentRow : Int) - 1) % 8 := by
    intro j2 h2
    unfold pixelY
    dsimp only
    split_ifs <;> omega
  have hX : pixelX i b = (((7 - b) + 8 * i : Nat) : Int) := by
    unfold pixelX
    omega
  refine ⟨hX, by omega, by omega, hY j hj, by rw [hY j hj]; omega, by rw [hY j hj]; omega,
    by rw [hY _ hc]; omega, ?_, ?_, ?_, ?_, ?_⟩
  · intro j2 h2 he
    rw [hY j2 h2, hY j hj] at he
    omega
  · intro y hy
    refine ⟨(y + currentRow + 1) % 8, by omega, ?_⟩
    rw [hY _ (by omega)]
    omega
  · rw [hY j hj]
    unfold colIndex
    omega
  · rw [hY j hj, hX]
    unfold colIndex
    omega
  · intro s hs hon
    subst hs
    unfold displayCell
    dsimp only
    rw [if_pos hon]
    have e1 : (pixelX i b % 256).toNat = (pixelX i b).toNat := by rw [hX]; omega
    have e2 : (pixelY s.currentRow j % 256).toNat = (pixelY s.currentRow j).toNat := by
      rw [hY j hj]; omega
    rw [e1, e2]

/-- Witness for C20: `currentRow` 3, byte 2, bit 5, buffer row 1. -/
theorem display_coordinates_witness :
    (3 ≤ 7 ∧ 2 ≤ 3 ∧ 5 ≤ 7 ∧ 1 ≤ 7)
    ∧ pixelX 2 5 = (((7 - 5) + 8 * 2 : Nat) : Int)
    ∧ 0 ≤ pixelX 2 5 ∧ pixelX 2 5 ≤ 31
    ∧ pixelY 3 1 = (((1 : Nat) : Int) - ((3 : Nat) : Int) - 1) % 8
    ∧ 0 ≤ pixelY 3 1 ∧ pixelY 3 1 ≤ 7
    ∧ pixelY 3 3 = 7
    ∧ (∀ j2, j2 ≤ 7 → pixelY 3 j2 = pixelY 3 1 → j2 = 1)
    ∧ (∀ y : Nat, y ≤ 7 → ∃ j2, j2 ≤ 7 ∧ pixelY 3 j2 = (y : Int))
    ∧ 0 ≤ colIndex (pixelX 2 5).toNat (pixelY 3 1).toNat
    ∧ colIndex (pixelX 2 5).toNat (pixelY 3 1).toNat < 32
    ∧ ∀ s : Node, s.currentRow = 3 → bitRead (s.state 2 1) 5 ≠ 0 →
        (displayCell s 1 2 5).ledCols
          = setPixel s.ledCols (pixelX 2 5).toNat (pixelY 3 1).toNat :=
  ⟨by decide, display_coordinates 3 2 5 1 (by decide) (by decide) (by decide) (by decide)⟩

/-! ## The sleep and wake draw -/

/-- The value of `isDisplaying` after `evolve`, from the values before. -/
theorem evolve_isDisplaying (s : Node) (r : Nat) :
    (evolve s r).isDisplaying
      = if ((s.generation + s.offset) % 65536) % 30 = 0 then
          (if r < s.sleepChance ∧ s.isDisplaying = true then false
           else if r < 90 ∧ s.isDisplaying = false then true
           else s.isDisplaying)
        else s.isDisplaying := by
  have hg : (evolveRow s).generation = s.generation := by rw [evolveRow_frame s]
  have ho : (evolveRow s).offset = s.offset := by rw [evolveRow_frame s]
  have hc : (evolveRow s).sleepChance = s.sleepChance := by rw [evolveRow_frame s]
  have hd : (evolveRow s).isDisplaying = s.isDisplaying := by rw [evolveRow_frame s]
  unfold evolve
  dsimp only
  rw [hg, ho, hc, hd]
  split_ifs <;> rfl

/-- C16 (as stated, refuted): the checkpoint is not `(generation + offset)
mod 30 = 0` once the sum passes 65535.  At generation 65535 with offset 1 the
sum is 65536, which is 16 modulo 30, yet `evolve` with the draw 0 puts the
active node to sleep; at generation 65534 with offset 16 the sum is 65550, a
multiple of 30, yet the active node with the draw 0, below its `sleepChance`
40, stays active. -/
theorem sleep_checkpoint_wraps :
    ((wrappedSumNode.generation + wrappedSumNode.offset) % 30 = 16
      ∧ wrappedSumNode.isDisplaying = true
      ∧ (evolve wrappedSumNode 0).isDisplaying = false)
    ∧ ((wrappedMultipleNode.generation + wrappedMultipleNode.offset) % 30 = 0
      ∧ wrappedMultipleNode.isDisplaying = true
      ∧ 0 < wrappedMultipleNode.sleepChance
      ∧ (evolve wrappedMultipleNode 0).isDisplaying = true) := by
  refine ⟨⟨by decide, rfl, ?_⟩, ⟨by decide, rfl, by decide, ?_⟩⟩
  · rw [evolve_isDisplaying]; decide
  · rw [evolve_isDisplaying]; decide

/-- C16 (amended): the sleep transition as a function of the draw.  A sleep
checkpoint is a state with `((generation + offset) mod 65536) mod 30 = 0`: the
sum in `(generation+offset) % 30 == 0` is a 16-bit unsigned sum, and the
condition is `(generation + offset) mod 30 = 0` whenever the sum is below
65536.  At a checkpoint, for every draw r and every `sleepChance`: an active
node with r < `sleepChance` becomes inactive, an inactive node with r < 90
becomes active, and in every other case `isDisplaying` is unchanged.  Away
from a checkpoint `evolve` never changes `isDisplaying`.  With `sleepChance`
40: the draw 35 while active gives inactive, 85 while inactive gives active,
95 while inactive stays inactive. -/
theorem sleep_transition :
    (∀ (s : Node) (r : Nat), ((s.generation + s.offset) % 65536) % 30 = 0 →
        (s.isDisplaying = true → r < s.sleepChance → (evolve s r).isDisplaying = false)
      ∧ (s.isDisplaying = false → r < 90 → (evolve s r).isDisplaying = true)
      ∧ (s.isDisplaying = true → ¬ r < s.sleepChance → (evolve s r).isDisplaying = true)
      ∧ (s.isDisplaying = false → ¬ r < 90 → (evolve s r).isDisplaying = false))
    ∧ (∀ (s : Node) (r : Nat), ¬ ((s.generation + s.offset) % 65536) % 30 = 0 →
        (evolve s r).isDisplaying = s.isDisplaying)
    ∧ (∀ s : Node, s.generation + s.offset < 65536 →
        (((s.generation + s.offset) % 65536) % 30 = 0 ↔ (s.generation + s.offset) % 30 = 0))
    ∧ (evolve checkpointNode 35).isDisplaying = false
    ∧ (evolve { checkpointNode with isDisplaying := false } 85).isDisplaying = true
    ∧ (evolve { checkpointNode with isDisplaying := false } 95).isDisplaying = false := by
  refine ⟨fun s r hcp => ⟨fun hd hr => ?_, fun hd hr => ?_, fun hd hr => ?_, fun hd hr => ?_⟩,
    fun s r hcp => ?_, fun s hlt => ?_, ?_, ?_, ?_⟩
  · rw [evolve_isDisplaying, if_pos hcp, if_pos ⟨hr, hd⟩]
  · rw [evolve_isDisplaying, if_pos hcp, if_neg (by simp [hd]), if_pos ⟨hr, hd⟩]
  · rw [evolve_isDisplaying, if_pos hcp, if_neg (fun h => hr h.1), if_neg (by simp [hd]), hd]
  · rw [evolve_isDisplaying, if_pos hcp, if_neg (by simp [hd]), if_neg (fun h => hr h.1), hd]
  · rw [evolve_isDisplaying, if_neg hcp]
  · rw [Nat.mod_eq_of_lt hlt]
  · rw [evolve_isDisplaying]; decide
  · rw [evolve_isDisplaying]; decide
  · rw [evolve_isDisplaying]; decide

/-! ## The frame of `evolve` -/

/-- C18: synchronous update and frame.  In a state with
`currentRow = generation mod 8`, `evolve` changes only row
(generation+1) mod 8 of the grid: every other row, the current row among
them, is unchanged; and every cell of the written row is the rule lookup on
cells of the current row as it was before `evolve` (and the two boundary
bits), never on a cell already updated. -/
theorem evolve_synchronous_frame (s : Node) (r : Nat)
    (hrow : s.currentRow = s.generation % 8) :
    (∀ i j, j ≠ (s.generation + 1) % 8 → (evolve s r).state i j = s.state i j)
    ∧ (∀ i, (evolve s r).state i s.currentRow = s.state i s.currentRow)
    ∧ (∀ p, p ≤ 31 →
        rowCell (evolve s r) ((s.generation + 1) % 8) p
          = ruleLookup (if p = 0 then s.nLeftBit else cell s (p - 1)) (cell s p)
              (if p = 31 then s.nRightBit else cell s (p + 1))) := by
  have hne : s.currentRow ≠ (s.generation + 1) % 8 := by omega
  obtain ⟨-, -, -, -, h5, h6⟩ := foldl_evolveCell evolveCells evolveCells_bit_lt s hne
  rw [← evolveRow_eq_foldl] at h5 h6
  refine ⟨fun i j hj => ?_, fun i => ?_, fun p hp => ?_⟩
  · rw [evolve_state]; exact h5 i j hj
  · rw [evolve_state]; exact h5 i _ hne
  · unfold rowCell
    rw [evolve_state, h6 _ _ (by omega), if_pos (mem_evolveCells p hp),
      newBit_eq_ruleLookup s p hp]

/-- Witness for C18: `steadyNode` (generation 9, current row 1). -/
theorem evolve_synchronous_frame_witness :
    steadyNode.currentRow = steadyNode.generation % 8
    ∧ (∀ i j, j ≠ (steadyNode.generation + 1) % 8 →
        (evolve steadyNode 0).state i j = steadyNode.state i j)
    ∧ (∀ i, (evolve steadyNode 0).state i steadyNode.currentRow
        = steadyNode.state i steadyNode.currentRow)
    ∧ (∀ p, p ≤ 31 →
        rowCell (evolve steadyNode 0) ((steadyNode.generation + 1) % 8) p
          = ruleLookup (if p = 0 then steadyNode.nLeftBit else cell steadyNode (p - 1))
              (cell steadyNode p)
              (if p = 31 then steadyNode.nRightBit else cell steadyNode (p + 1))) :=
  ⟨by decide, evolve_synchronous_frame steadyNode 0 (by decide)⟩

/-! ## The scan of the grid -/

/-- Two folds whose steps keep a relation end in related states. -/
theorem foldl_related {α β γ : Type} (R : β → γ → Prop) (f : β → α → β) (g : γ → α → γ)
    (h : ∀ s c a, R s c → R (f s a) (g c a)) (l : List α) (s : β) (c : γ) (hR : R s c) :
    R (l.foldl f s) (l.foldl g c) := by
  induction l generalizing s c with
  | nil => exact hR
  | cons a l ih => exact ih (f s a) (g c a) (h s c a hR)

/-- Three nested loops over rows, bytes and bits, as one fold over `gridBits`. -/
theorem foldl_gridBits {γ : Type} (g : γ → Nat → γ) (st : Nat → Nat → Nat) (c : γ) :
    [7, 6, 5, 4, 3, 2, 1, 0].foldl
      (fun acc j => (List.range WIDTH).foldl
        (fun acc i => [7, 6, 5, 4, 3, 2, 1, 0].foldl
          (fun acc b => g acc (bitRead (st i j) b)) acc) acc) c
      = (gridBits st).foldl g c := by
  unfold gridBits
  simp only [List.foldl_flatten, List.foldl_map]

/-- The population step of `display` on the counter alone. -/
theorem foldl_population (l : List Nat) (c : Nat) (hc : c < 256) :
    l.foldl (fun p bit => if bit ≠ 0 then (p + 1) % 256 else p) c
      = (c + l.countP (fun bit => bit ≠ 0)) % 256 := by
  induction l generalizing c with
  | nil => simp [Nat.mod_eq_of_lt hc]
  | cons bit l ih =>
    rw [List.foldl_cons]
    by_cases hb : bit ≠ 0
    · have hd : decide (bit ≠ 0) = true := by simpa using hb
      rw [if_pos hb, ih _ (Nat.mod_lt _ (by decide)), List.countP_cons, if_pos hd]
      omega
    · have hd : ¬ decide (bit ≠ 0) = true := by simpa using hb
      rw [if_neg hb, ih _ hc, List.countP_cons, if_neg hd, Nat.add_zero]

/-- The loop body of `display` leaves the grid and `currentRow` alone and
counts a set bit into `population`. -/
theorem displayCell_fields (s : Node) (j i b : Nat) :
    (displayCell s j i b).state = s.state
    ∧ (displayCell s j i b).population
        = if bitRead (s.state i j) b ≠ 0 then (s.population + 1) % 256 else s.population := by
  unfold displayCell
  dsimp only
  split_ifs <;> exact ⟨rfl, rfl⟩

/-- The population after the loops of `display`: the set bits of the grid
are added to it, modulo 256. -/
theorem displayLoops_population (t : Node) (hp : t.population < 256) :
    (displayLoops t).population = (t.population + setBitCount t.state) % 256 := by
  have hrel := foldl_related
    (fun (u : Node) (c : Nat) => u.state = t.state ∧ u.population = c)
    (fun u j => (List.range WIDTH).foldl
        (fun u i => [7, 6, 5, 4, 3, 2, 1, 0].foldl (fun u b => displayCell u j i b) u) u)
    (fun c j => (List.range WIDTH).foldl
        (fun c i => [7, 6, 5, 4, 3, 2, 1, 0].foldl
          (fun c b => if bitRead (t.state i j) b ≠ 0 then (c + 1) % 256 else c) c) c)
    (fun u c j hu => foldl_related
        (fun (u : Node) (c : Nat) => u.state = t.state ∧ u.population = c) _ _
      (fun u c i hu => foldl_related
        (fun (u : Node) (c : Nat) => u.state = t.state ∧ u.population = c) _ _
        (fun u c b hu => by
          obtain ⟨h1, h2⟩ := displayCell_fields u j i b
          refine ⟨h1.trans hu.1, ?_⟩
          rw [h2, hu.1, hu.2]) _ u c hu) _ u c hu)
    [7, 6, 5, 4, 3, 2, 1, 0] t t.population ⟨rfl, rfl⟩
  have h2 := hrel.2
  rw [foldl_gridBits (fun p bit => if bit ≠ 0 then (p + 1) % 256 else p) t.state t.population,
    foldl_population _ _ hp] at h2
  unfold setBitCount
  exact h2

/-- The reset of `display` changes the LED buffer, the intensity,
`wasDisplaying` and the population, which it clears. -/
theorem displayReset_frame (s : Node) :
    displayReset s = { s with ledCols := (displayReset s).ledCols,
                              ledIntensity := (displayReset s).ledIntensity,
                              wasDisplaying := (displayReset s).wasDisplaying,
                              population := 0 } := by
  unfold displayReset
  dsimp only
  split_ifs <;> rfl

/-- The population after `display` is the number of set bits of the grid,
modulo 256: `population` is a `uint8_t`. -/
theorem display_population (s : Node) :
    (display s).population = setBitCount s.state % 256 := by
  have hs : (displayReset s).state = s.state := by rw [displayReset_frame s]
  have hp : (displayReset s).population = 0 := by rw [displayReset_frame s]
  unfold display
  rw [displayLoops_population _ (by omega), hp, hs, Nat.zero_add]

/-! ## The population count -/

set_option maxRecDepth 20000 in
/-- The all-ones grid has 256 set bits. -/
theorem setBitCount_allOnes : setBitCount allOnesNode.state = 256 := by
  decide

set_option maxRecDepth 20000 in
/-- The all-zero grid has no set bit. -/
theorem setBitCount_allZeros : setBitCount allZerosNode.state = 0 := by
  decide

/-- C12 (as stated, refuted): on the all-ones grid, which has 256 set bits,
`display` leaves `population` at 0: the `uint8_t` counter wraps. -/
theorem population_wraps_on_all_ones :
    setBitCount allOnesNode.state = 256 ∧ (display allOnesNode).population = 0 := by
  refine ⟨setBitCount_allOnes, ?_⟩
  rw [display_population, setBitCount_allOnes]

/-- C12 (amended): the population count.  For every content of the grid the
value of `population` after `display` is the number of set bits modulo 256
(`population` is a `uint8_t`); so for every grid with at most 255 set bits,
the all-zero grid among them, it is the number of set bits. -/
theorem population_count (s : Node) :
    (display s).population = setBitCount s.state % 256
    ∧ (setBitCount s.state ≤ 255 → (display s).population = setBitCount s.state)
    ∧ setBitCount allZerosNode.state = 0
    ∧ (display allZerosNode).population = 0 := by
  refine ⟨display_population s, fun h => ?_, setBitCount_allZeros, ?_⟩
  · rw [display_population]
    exact Nat.mod_eq_of_lt (by omega)
  · rw [display_population, setBitCount_allZeros]

/-! ## The zero-run scan of `detectTri` -/

set_option maxRecDepth 50000 in
/-- C13 (the code at the failing input): on the all-zero grid the longest run
of unset bits is the whole scan, 256 bits, and `detectTri` ends its loops with
`maxStreak = 0`: the run that ends at the last bit scanned is never compared
with `maxStreak`. -/
theorem maxStreak_misses_final_run :
    longestZeroRun (gridBits allZerosNode.state) = 256
    ∧ streakScan allZerosNode.state = (256, 0)
    ∧ maxStreak allZerosNode.state = 0 := by
  decide

/-! ## The triangle trigger -/

/-- The two cases of `detectTri`: it fires, setting `prevTri` and starting
the envelope, or it changes nothing. -/
theorem detectTri_eq (s : Node) :
    detectTri s
      = if (s.generation + 65536 - s.prevTri) % 65536 > 8 ∧ maxStreak s.state > 6 then
          { s with
              prevTri := s.generation
              envLog := s.envLog ++ [EnvStart.times 10
                (((arduinoMap (maxStreak s.state) 7 14 1000 6000 % 65536).toNat
                  + 65536 - 10) % 65536)] }
        else s := by
  unfold detectTri
  dsimp only
  by_cases h1 : (s.generation + 65536 - s.prevTri) % 65536 > 8
  · by_cases h2 : maxStreak s.state > 6
    · rw [if_pos h1, if_pos h2, if_pos ⟨h1, h2⟩]
    · rw [if_pos h1, if_neg h2, if_neg (fun h => h2 h.2)]
  · rw [if_neg h1, if_neg (fun h => h1 h.1)]

/-- The loop body of `display` changes the LED buffer and the population and
nothing else. -/
theorem displayCell_frame (s : Node) (j i b : Nat) :
    displayCell s j i b = { s with ledCols := (displayCell s j i b).ledCols,
                                   population := (displayCell s j i b).population } := by
  unfold displayCell
  dsimp only
  split_ifs <;> rfl

/-- The loops of `display` change the LED buffer and the population and
nothing else. -/
theorem displayLoops_frame (s : Node) :
    displayLoops s = { s with ledCols := (displayLoops s).ledCols,
                              population := (displayLoops s).population } := by
  unfold displayLoops
  exact foldl_keeps
    (fun t => t = { s with ledCols := t.ledCols, population := t.population })
    (fun u j => (List.range WIDTH).foldl
        (fun u i => [7, 6, 5, 4, 3, 2, 1, 0].foldl (fun u b => displayCell u j i b) u) u)
    (fun t j ht => foldl_keeps
      (fun t => t = { s with ledCols := t.ledCols, population := t.population }) _
      (fun t i ht => foldl_keeps
        (fun t => t = { s with ledCols := t.ledCols, population := t.population }) _
        (fun t b ht => by rw [displayCell_frame t j i b, ht]) _ t ht) _ t ht)
    _ s rfl

/-- `display` changes the LED buffer, the intensity, `wasDisplaying` and the
population, and nothing else. -/
theorem display_frame (s : Node) :
    display s = { s with ledCols := (display s).ledCols,
                         ledIntensity := (display s).ledIntensity,
                         wasDisplaying := (display s).wasDisplaying,
                         population := (display s).population } := by
  have key : ∀ L R : Node, L = { R with ledCols := L.ledCols, population := L.population } →
      R = { s with ledCols := R.ledCols, ledIntensity := R.ledIntensity,
                   wasDisplaying := R.wasDisplaying, population := 0 } →
      L = { s with ledCols := L.ledCols, ledIntensity := L.ledIntensity,
                   wasDisplaying := L.wasDisplaying, population := L.population } := by
    intro L R hL hR
    rw [hL, hR]
  exact key _ _ (displayLoops_frame (displayReset s)) (displayReset_frame s)

/-- `detectTri` changes `prevTri` and the envelope log and nothing else. -/
theorem detectTri_frame (s : Node) :
    detectTri s = { s with prevTri := (detectTri s).prevTri,
                           envLog := (detectTri s).envLog } := by
  rw [detectTri_eq]
  split_ifs <;> rfl

/-- The function `evolve` leaves `generation` alone. -/
theorem evolve_generation (s : Node) (r : Nat) : (evolve s r).generation = s.generation := by
  have h := evolve_frame s r
  generalize evolve s r = t at h ⊢
  rw [h]

/-- The function `evolve` leaves `currentRow` alone. -/
theorem evolve_currentRow (s : Node) (r : Nat) : (evolve s r).currentRow = s.currentRow := by
  have h := evolve_frame s r
  generalize evolve s r = t at h ⊢
  rw [h]

/-- The function `evolve` leaves `nLeftBit` alone. -/
theorem evolve_nLeftBit (s : Node) (r : Nat) : (evolve s r).nLeftBit = s.nLeftBit := by
  have h := evolve_frame s r
  generalize evolve s r = t at h ⊢
  rw [h]

/-- The function `evolve` leaves `nRightBit` alone. -/
theorem evolve_nRightBit (s : Node) (r : Nat) : (evolve s r).nRightBit = s.nRightBit := by
  have h := evolve_frame s r
  generalize evolve s r = t at h ⊢
  rw [h]

/-- The function `evolve` leaves `leftReceived` alone. -/
theorem evolve_leftReceived (s : Node) (r : Nat) : (evolve s r).leftReceived = s.leftReceived := by
  have h := evolve_frame s r
  generalize evolve s r = t at h ⊢
  rw [h]

/-- The function `evolve` leaves `rightReceived` alone. -/
theorem evolve_rightReceived (s : Node) (r : Nat) : (evolve s r).rightReceived = s.rightReceived := by
  have h := evolve_frame s r
  generalize evolve s r = t at h ⊢
  rw [h]

/-- The function `evolve` leaves `sendingReadyMsg` alone. -/
theorem evolve_sendingReadyMsg (s : Node) (r : Nat) : (evolve s r).sendingReadyMsg = s.sendingReadyMsg := by
  have h := evolve_frame s r
  generalize evolve s r = t at h ⊢
  rw [h]

/-- The function `display` leaves `generation` alone. -/
theorem display_generation (s : Node) : (display s).generation = s.generation := by
  have h := display_frame s
  generalize display s = t at h ⊢
  rw [h]

/-- The function `display` leaves `currentRow` alone. -/
theorem display_currentRow (s : Node) : (display s).currentRow = s.currentRow := by
  have h := display_frame s
  generalize display s = t at h ⊢
  rw [h]

/-- The function `display` leaves `state` alone. -/
theorem display_state (s : Node) : (display s).state = s.state := by
  have h := display_frame s
  generalize display s = t at h ⊢
  rw [h]

/-- The function `display` leaves `nLeftBit` alone. -/
theorem display_nLeftBit (s : Node) : (display s).nLeftBit = s.nLeftBit := by
  have h := display_frame s
  generalize display s = t at h ⊢
  rw [h]

/-- The function `display` leaves `nRightBit` alone. -/
theorem display_nRightBit (s : Node) : (display s).nRightBit = s.nRightBit := by
  have h := display_frame s
  generalize display s = t at h ⊢
  rw [h]

/-- The function `display` leaves `leftReceived` alone. -/
theorem display_leftReceived (s : Node) : (display s).leftReceived = s.leftReceived := by
  have h := display_frame s
  generalize display s = t at h ⊢
  rw [h]

/-- The function `display` leaves `rightReceived` alone. -/
theorem display_rightReceived (s : Node) : (display s).rightReceived = s.rightReceived := by
  have h := display_frame s
  generalize display s = t at h ⊢
  rw [h]

/-- The function `display` leaves `sendingReadyMsg` alone. -/
theorem display_sendingReadyMsg (s : Node) : (display s).sendingReadyMsg = s.sendingReadyMsg := by
  have h := display_frame s
  generalize display s = t at h ⊢
  rw [h]

/-- The function `detectTri` leaves `generation` alone. -/
theorem detectTri_generation (s : Node) : (detectTri s).generation = s.generation := by
  have h := detectTri_frame s
  generalize detectTri s = t at h ⊢
  rw [h]

/-- The function `detectTri` leaves `currentRow` alone. -/
theorem detectTri_currentRow (s : Node) : (detectTri s).currentRow = s.currentRow := by
  have h := detectTri_frame s
  generalize detectTri s = t at h ⊢
  rw [h]

/-- The function `detectTri` leaves `state` alone. -/
theorem detectTri_state (s : Node) : (detectTri s).state = s.state := by
  have h := detectTri_frame s
  generalize detectTri s = t at h ⊢
  rw [h]

/-- The function `detectTri` leaves `nLeftBit` alone. -/
theorem detectTri_nLeftBit (s : Node) : (detectTri s).nLeftBit = s.nLeftBit := by
  have h := detectTri_frame s
  generalize detectTri s = t at h ⊢
  rw [h]

/-- The function `detectTri` leaves `nRightBit` alone. -/
theorem detectTri_nRightBit (s : Node) : (detectTri s).nRightBit = s.nRightBit := by
  have h := detectTri_frame s
  generalize detectTri s = t at h ⊢
  rw [h]

/-- The function `detectTri` leaves `leftReceived` alone. -/
theorem detectTri_leftReceived (s : Node) : (detectTri s).leftReceived = s.leftReceived := by
  have h := detectTri_frame s
  generalize detectTri s = t at h ⊢
  rw [h]

/-- The function `detectTri` leaves `rightReceived` alone. -/
theorem detectTri_rightReceived (s : Node) : (detectTri s).rightReceived = s.rightReceived := by
  have h := detectTri_frame s
  generalize detectTri s = t at h ⊢
  rw [h]

/-- The function `detectTri` leaves `sendingReadyMsg` alone. -/
theorem detectTri_sendingReadyMsg (s : Node) : (detectTri s).sendingReadyMsg = s.sendingReadyMsg := by
  have h := detectTri_frame s
  generalize detectTri s = t at h ⊢
  rw [h]

/-- The function `cycle` as the composition of its statements. -/
theorem cycle_eq (ID : Nat) (s : Node) (r : Nat) :
    cycle ID s r
      = clearReceived (sendLeftRight ID (sonify (display (setCurrentRow
          (incrGeneration (evolve s r)))))) := by
  unfold cycle
  rfl

/-- The fields of the automaton after `cycle`. -/
theorem cycle_fields (ID : Nat) (s : Node) (r : Nat) :
    (cycle ID s r).generation = (s.generation + 1) % 65536
    ∧ (cycle ID s r).currentRow = ((s.generation + 1) % 65536) % 8
    ∧ (cycle ID s r).state = (evolve s r).state
    ∧ (cycle ID s r).nLeftBit = s.nLeftBit
    ∧ (cycle ID s r).nRightBit = s.nRightBit
    ∧ (cycle ID s r).sendingReadyMsg = s.sendingReadyMsg
    ∧ (cycle ID s r).leftReceived = false
    ∧ (cycle ID s r).rightReceived = false := by
  have hmod : ((s.generation + 1) % 65536) % 8 % 256 = ((s.generation + 1) % 65536) % 8 := by
    omega
  have hc : ∀ t : Node, (clearReceived t).generation = t.generation
      ∧ (clearReceived t).currentRow = t.currentRow ∧ (clearReceived t).state = t.state
      ∧ (clearReceived t).nLeftBit = t.nLeftBit ∧ (clearReceived t).nRightBit = t.nRightBit
      ∧ (clearReceived t).sendingReadyMsg = t.sendingReadyMsg
      ∧ (clearReceived t).leftReceived = false ∧ (clearReceived t).rightReceived = false :=
    fun t => ⟨rfl, rfl, rfl, rfl, rfl, rfl, rfl, rfl⟩
  have hw : ∀ t : Node, (sendLeftRight ID t).generation = t.generation
      ∧ (sendLeftRight ID t).currentRow = t.currentRow ∧ (sendLeftRight ID t).state = t.state
      ∧ (sendLeftRight ID t).nLeftBit = t.nLeftBit ∧ (sendLeftRight ID t).nRightBit = t.nRightBit
      ∧ (sendLeftRight ID t).sendingReadyMsg = t.sendingReadyMsg :=
    fun t => ⟨rfl, rfl, rfl, rfl, rfl, rfl⟩
  have hr : ∀ t : Node, (setCurrentRow t).generation = t.generation
      ∧ (setCurrentRow t).currentRow = (t.generation % 8) % 256
      ∧ (setCurrentRow t).state = t.state
      ∧ (setCurrentRow t).nLeftBit = t.nLeftBit ∧ (setCurrentRow t).nRightBit = t.nRightBit
      ∧ (setCurrentRow t).sendingReadyMsg = t.sendingReadyMsg :=
    fun t => ⟨rfl, rfl, rfl, rfl, rfl, rfl⟩
  have hi : ∀ t : Node, (incrGeneration t).generation = (t.generation + 1) % 65536
      ∧ (incrGeneration t).state = t.state
      ∧ (incrGeneration t).nLeftBit = t.nLeftBit ∧ (incrGeneration t).nRightBit = t.nRightBit
      ∧ (incrGeneration t).sendingReadyMsg = t.sendingReadyMsg :=
    fun t => ⟨rfl, rfl, rfl, rfl, rfl⟩
  rw [cycle_eq]
  refine ⟨?_, ?_, ?_, ?_, ?_, ?_, (hc _).2.2.2.2.2.2.1, (hc _).2.2.2.2.2.2.2⟩
  · rw [(hc _).1, (hw _).1, sonify, detectTri_generation, display_generation, (hr _).1,
      (hi _).1, evolve_generation]
  · rw [(hc _).2.1, (hw _).2.1, sonify, detectTri_currentRow, display_currentRow, (hr _).2.1,
      (hi _).1, evolve_generation, hmod]
  · rw [(hc _).2.2.1, (hw _).2.2.1, sonify, detectTri_state, display_state, (hr _).2.2.1,
      (hi _).2.1]
  · rw [(hc _).2.2.2.1, (hw _).2.2.2.1, sonify, detectTri_nLeftBit, display_nLeftBit,
      (hr _).2.2.2.1, (hi _).2.2.1, evolve_nLeftBit]
  · rw [(hc _).2.2.2.2.1, (hw _).2.2.2.2.1, sonify, detectTri_nRightBit, display_nRightBit,
      (hr _).2.2.2.2.1, (hi _).2.2.2.1, evolve_nRightBit]
  · rw [(hc _).2.2.2.2.2.1, (hw _).2.2.2.2.2, sonify, detectTri_sendingReadyMsg,
      display_sendingReadyMsg, (hr _).2.2.2.2.2, (hi _).2.2.2.2, evolve_sendingReadyMsg]

/-! ## Frames of `updateSerial` and `updateControl` -/

/-- One received byte leaves the grid, `currentRow` and `generation` alone,
and each boundary bit either stays or becomes a bit of the byte. -/
theorem updateSerialMsg_fields (ID : Nat) (s : Node) (msg : Nat) :
    (updateSerialMsg ID s msg).state = s.state
    ∧ (updateSerialMsg ID s msg).currentRow = s.currentRow
    ∧ (updateSerialMsg ID s msg).generation = s.generation
    ∧ ((updateSerialMsg ID s msg).nLeftBit = s.nLeftBit
        ∨ (updateSerialMsg ID s msg).nLeftBit = bitRead msg 0)
    ∧ ((updateSerialMsg ID s msg).nRightBit = s.nRightBit
        ∨ (updateSerialMsg ID s msg).nRightBit = bitRead msg 1) := by
  unfold updateSerialMsg
  dsimp only
  split_ifs <;> simp [serialWrite, sendLeftRight]

/-- The function `updateSerial` leaves the grid, `currentRow` and `generation`
alone, and keeps the boundary bits in {0,1}. -/
theorem updateSerial_fields (ID : Nat) (s : Node) (rx : List Nat) :
    (updateSerial ID s rx).state = s.state
    ∧ (updateSerial ID s rx).currentRow = s.currentRow
    ∧ (updateSerial ID s rx).generation = s.generation
    ∧ (s.nLeftBit ≤ 1 → (updateSerial ID s rx).nLeftBit ≤ 1)
    ∧ (s.nRightBit ≤ 1 → (updateSerial ID s rx).nRightBit ≤ 1) := by
  unfold updateSerial
  refine foldl_keeps
    (fun t => t.state = s.state ∧ t.currentRow = s.currentRow ∧ t.generation = s.generation
      ∧ (s.nLeftBit ≤ 1 → t.nLeftBit ≤ 1) ∧ (s.nRightBit ≤ 1 → t.nRightBit ≤ 1))
    (updateSerialMsg ID) ?_ rx s ⟨rfl, rfl, rfl, id, id⟩
  intro t msg ⟨h1, h2, h3, h4, h5⟩
  obtain ⟨e1, e2, e3, e4, e5⟩ := updateSerialMsg_fields ID t msg
  refine ⟨e1.trans h1, e2.trans h2, e3.trans h3, fun h => ?_, fun h => ?_⟩
  · rcases e4 with e | e
    · rw [e]; exact h4 h
    · rw [e]; exact bitRead_le_one _ _
  · rcases e5 with e | e
    · rw [e]; exact h5 h
    · rw [e]; exact bitRead_le_one _ _

/-- The two outcomes of a control tick after `updateSerial`: `cycle` runs
when `advances` holds; otherwise at most the ready byte is written. -/
theorem updateControl_eq (ID : Nat) (s : Node) (rx : List Nat) (ready : Bool) (r : Nat) :
    (advances ID (updateSerial ID s rx) ready →
      updateControl ID s rx ready r = cycle ID (updateSerial ID s rx) r)
    ∧ (¬ advances ID (updateSerial ID s rx) ready →
      updateControl ID s rx ready r = updateSerial ID s rx
      ∨ updateControl ID s rx ready r = sendReadyMsg (updateSerial ID s rx)) := by
  unfold updateControl advances
  dsimp only
  generalize updateSerial ID s rx = t
  constructor
  · rintro ⟨h1, h2, h3, h4⟩
    by_cases h0 : ID = 0
    · simp [h1, h2, h3, h0, h4 h0]
    · simp [h1, h2, h3, h0]
  · intro h
    by_cases h1 : t.sendingReadyMsg = true
    · by_cases hr : ready = true
      · right; simp [h1, hr]
      · left; simp [h1, hr]
    · left
      have h1f : t.sendingReadyMsg = false := by simpa using h1
      by_cases h0 : ID = 0
      · by_cases hr : ready = true
        · have : ¬ (t.leftReceived = true ∧ t.rightReceived = true) :=
            fun hh => h ⟨h1f, hh.1, hh.2, fun _ => hr⟩
          simp [h1f, h0, hr, this]
        · simp [h1f, h0, hr]
      · have : ¬ (t.leftReceived = true ∧ t.rightReceived = true) :=
          fun hh => h ⟨h1f, hh.1, hh.2, fun h00 => absurd h00 h0⟩
        simp [h1f, h0, this]

/-! ## The control tick -/

/-- The function `setup` as the composition of its parts. -/
theorem setup_eq (ID offsetDraw : Nat) (rowDraw : Nat → Nat) :
    setup ID offsetDraw rowDraw
      = setupStart ID (setupSleepChance ID (display (setupGrid offsetDraw rowDraw))) := by
  unfold setup
  rfl

/-- The `switch(ID)` of `setup` changes `sleepChance` only. -/
theorem setupSleepChance_fields (ID : Nat) (s : Node) :
    (setupSleepChance ID s).generation = s.generation
    ∧ (setupSleepChance ID s).currentRow = s.currentRow
    ∧ (setupSleepChance ID s).nLeftBit = s.nLeftBit
    ∧ (setupSleepChance ID s).nRightBit = s.nRightBit := by
  unfold setupSleepChance
  split_ifs <;> exact ⟨rfl, rfl, rfl, rfl⟩

/-- The last statement of `setup` leaves the automaton alone. -/
theorem setupStart_fields (ID : Nat) (s : Node) :
    (setupStart ID s).generation = s.generation
    ∧ (setupStart ID s).currentRow = s.currentRow
    ∧ (setupStart ID s).nLeftBit = s.nLeftBit
    ∧ (setupStart ID s).nRightBit = s.nRightBit := by
  unfold setupStart
  split_ifs
  · dsimp only
    rw [sonify, detectTri_generation, detectTri_currentRow, detectTri_nLeftBit,
      detectTri_nRightBit]
    exact ⟨rfl, rfl, rfl, rfl⟩
  · exact ⟨rfl, rfl, rfl, rfl⟩
  · exact ⟨rfl, rfl, rfl, rfl⟩

/-- The state `setup` leaves: generation 0, row 0 current, both boundary bits
0. -/
theorem setup_fields (ID offsetDraw : Nat) (rowDraw : Nat → Nat) :
    (setup ID offsetDraw rowDraw).generation = 0
    ∧ (setup ID offsetDraw rowDraw).currentRow = 0
    ∧ (setup ID offsetDraw rowDraw).nLeftBit = 0
    ∧ (setup ID offsetDraw rowDraw).nRightBit = 0 := by
  obtain ⟨a1, a2, a3, a4⟩ := setupStart_fields ID
    (setupSleepChance ID (display (setupGrid offsetDraw rowDraw)))
  obtain ⟨b1, b2, b3, b4⟩ := setupSleepChance_fields ID (display (setupGrid offsetDraw rowDraw))
  rw [setup_eq, a1, a2, a3, a4, b1, b2, b3, b4, display_generation, display_currentRow,
    display_nLeftBit, display_nRightBit]
  exact ⟨rfl, rfl, rfl, rfl⟩

/-- One control tick keeps `currentRow = generation mod 8` and keeps the
boundary bits in {0,1}. -/
theorem updateControl_keeps (ID : Nat) (s : Node) (rx : List Nat) (ready : Bool) (r : Nat)
    (h : s.currentRow = s.generation % 8 ∧ s.nLeftBit ≤ 1 ∧ s.nRightBit ≤ 1) :
    (updateControl ID s rx ready r).currentRow = (updateControl ID s rx ready r).generation % 8
    ∧ (updateControl ID s rx ready r).nLeftBit ≤ 1
    ∧ (updateControl ID s rx ready r).nRightBit ≤ 1 := by
  obtain ⟨hadv, hstay⟩ := updateControl_eq ID s rx ready r
  obtain ⟨-, u2, u3, u4, u5⟩ := updateSerial_fields ID s rx
  by_cases ha : advances ID (updateSerial ID s rx) ready
  · obtain ⟨c1, c2, -, c4, c5, -, -, -⟩ := cycle_fields ID (updateSerial ID s rx) r
    rw [hadv ha, c1, c2, c4, c5]
    exact ⟨rfl, u4 h.2.1, u5 h.2.2⟩
  · rcases hstay ha with e | e
    · rw [e, u2, u3]
      exact ⟨h.1, u4 h.2.1, u5 h.2.2⟩
    · rw [e]
      show (updateSerial ID s rx).currentRow = (updateSerial ID s rx).generation % 8
        ∧ (updateSerial ID s rx).nLeftBit ≤ 1 ∧ (updateSerial ID s rx).nRightBit ≤ 1
      rw [u2, u3]
      exact ⟨h.1, u4 h.2.1, u5 h.2.2⟩

/-- In every reachable state `currentRow = generation mod 8` and both
boundary bits are 0 or 1. -/
theorem reachable_invariant (ID : Nat) (s : Node) (h : Reachable ID s) :
    s.currentRow = s.generation % 8 ∧ s.nLeftBit ≤ 1 ∧ s.nRightBit ≤ 1 := by
  induction h with
  | setup offsetDraw rowDraw =>
    obtain ⟨h1, h2, h3, h4⟩ := setup_fields ID offsetDraw rowDraw
    rw [h1, h2, h3, h4]
    decide
  | tick s rx ready r _ ih => exact updateControl_keeps ID s rx ready r ih

/-- The new bit of `evolve` is the rule lookup on the neighbourhood. -/
theorem newBit_eq_neighbourhood (s : Node) (i b : Nat) :
    newBit s i b = ruleLookup (neighbourhood s i b).1 (neighbourhood s i b).2.1
      (neighbourhood s i b).2.2 :=
  rfl

/-- With boundary bits in {0,1}, the three values `evolve` reads are bits. -/
theorem neighbourhood_bits (s : Node) (i b : Nat) (hL : s.nLeftBit ≤ 1)
    (hR : s.nRightBit ≤ 1) :
    (neighbourhood s i b).1 ≤ 1 ∧ (neighbourhood s i b).2.1 ≤ 1
    ∧ (neighbourhood s i b).2.2 ≤ 1 := by
  unfold neighbourhood
  dsimp only
  refine ⟨?_, bitRead_le_one _ _, ?_⟩
  · split_ifs
    · exact hL
    · exact bitRead_le_one _ _
    · exact bitRead_le_one _ _
  · split_ifs
    · exact hR
    · exact bitRead_le_one _ _
    · exact bitRead_le_one _ _

/-- C17: the row-index invariant.  `currentRow = generation mod 8` holds
before and after `setup` (both are 0); `updateSerial` changes neither;
`cycle` re-establishes it from any state, also when the 16-bit `generation`
wraps from 65535 to 0; a control tick preserves it; so it holds in every
reachable state.  After `cycle`, `currentRow` is the row (generation+1) mod 8
that `evolve` has just written, and the grid is the one `evolve` left. -/
theorem row_index_invariant :
    (initialNode.currentRow = 0 ∧ initialNode.generation = 0)
    ∧ (∀ (ID offsetDraw : Nat) (rowDraw : Nat → Nat),
        (setup ID offsetDraw rowDraw).currentRow = 0
        ∧ (setup ID offsetDraw rowDraw).generation = 0)
    ∧ (∀ (ID : Nat) (s : Node) (rx : List Nat),
        (updateSerial ID s rx).currentRow = s.currentRow
        ∧ (updateSerial ID s rx).generation = s.generation)
    ∧ (∀ (ID : Nat) (s : Node) (r : Nat),
        (cycle ID s r).currentRow = (cycle ID s r).generation % 8)
    ∧ (∀ (ID : Nat) (s : Node) (r : Nat), s.generation = 65535 →
        (cycle ID s r).generation = 0 ∧ (cycle ID s r).currentRow = 0)
    ∧ (∀ (ID : Nat) (s : Node) (rx : List Nat) (ready : Bool) (r : Nat),
        s.currentRow = s.generation % 8 →
        (updateControl ID s rx ready r).currentRow
          = (updateControl ID s rx ready r).generation % 8)
    ∧ (∀ (ID : Nat) (s : Node), Reachable ID s → s.currentRow = s.generation % 8)
    ∧ (∀ (ID : Nat) (s : Node) (r : Nat),
        (cycle ID s r).currentRow = (s.generation + 1) % 8
        ∧ (cycle ID s r).state = (evolve s r).state
        ∧ ∀ i, (cycle ID s r).state i (cycle ID s r).currentRow
            = (evolve s r).state i ((s.generation + 1) % 8)) := by
  refine ⟨⟨rfl, rfl⟩, fun ID o row => ?_, fun ID s rx => ?_, fun ID s r => ?_,
    fun ID s r hg => ?_, fun ID s rx ready r hrow => ?_, fun ID s h => ?_, fun ID s r => ?_⟩
  · obtain ⟨h1, h2, -, -⟩ := setup_fields ID o row
    exact ⟨h2, h1⟩
  · obtain ⟨-, u2, u3, -, -⟩ := updateSerial_fields ID s rx
    exact ⟨u2, u3⟩
  · obtain ⟨c1, c2, -, -, -, -, -, -⟩ := cycle_fields ID s r
    rw [c1, c2]
  · obtain ⟨c1, c2, -, -, -, -, -, -⟩ := cycle_fields ID s r
    rw [c1, c2, hg]
    decide
  · obtain ⟨hadv, hstay⟩ := updateControl_eq ID s rx ready r
    obtain ⟨-, u2, u3, -, -⟩ := updateSerial_fields ID s rx
    by_cases ha : advances ID (updateSerial ID s rx) ready
    · obtain ⟨c1, c2, -, -, -, -, -, -⟩ := cycle_fields ID (updateSerial ID s rx) r
      rw [hadv ha, c1, c2]
    · rcases hstay ha with e | e
      · rw [e, u2, u3]; exact hrow
      · rw [e]
        show (updateSerial ID s rx).currentRow = (updateSerial ID s rx).generation % 8
        rw [u2, u3]; exact hrow
  · exact (reachable_invariant ID s h).1
  · obtain ⟨-, c2, c3, -, -, -, -, -⟩ := cycle_fields ID s r
    have hc : (cycle ID s r).currentRow = (s.generation + 1) % 8 := by rw [c2]; omega
    refine ⟨hc, c3, fun i => ?_⟩
    rw [hc, c3]

/-- C19: the rule index is always in range.  In every state reachable from
`setup` by any sequence of control ticks with any received bytes, `nLeftBit`
and `nRightBit` are 0 or 1; hence for every cell the three values `left`,
`self`, `right` that `evolve` reads are bits, the index `4*left + 2*self +
right` is in [0,7], and the new bit is bit number `4*left + 2*self + right`
of the 8-bit rule constant. -/
theorem rule_index_in_range (ID : Nat) (s : Node) (h : Reachable ID s) :
    s.nLeftBit ≤ 1 ∧ s.nRightBit ≤ 1
    ∧ ∀ i b, (neighbourhood s i b).1 ≤ 1 ∧ (neighbourhood s i b).2.1 ≤ 1
        ∧ (neighbourhood s i b).2.2 ≤ 1
        ∧ 4 * (neighbourhood s i b).1 + 2 * (neighbourhood s i b).2.1
            + (neighbourhood s i b).2.2 ≤ 7
        ∧ newBit s i b
            = bitRead RULE (4 * (neighbourhood s i b).1 + 2 * (neighbourhood s i b).2.1
                + (neighbourhood s i b).2.2) := by
  obtain ⟨-, hL, hR⟩ := reachable_invariant ID s h
  refine ⟨hL, hR, fun i b => ?_⟩
  obtain ⟨n1, n2, n3⟩ := neighbourhood_bits s i b hL hR
  refine ⟨n1, n2, n3, by omega, ?_⟩
  rw [newBit_eq_neighbourhood]
  exact ruleLookup_bits _ _ _ n1 n2 n3

/-- Witness for C19: node 0 after `setup` and one control tick in which it
reads the ready byte and the byte 13 of its left neighbour. -/
theorem rule_index_in_range_witness :
    Reachable 0 (updateControl 0 (setup 0 7 (fun i => 200 + i)) [129, 13] true 0)
    ∧ (updateControl 0 (setup 0 7 (fun i => 200 + i)) [129, 13] true 0).nLeftBit ≤ 1
    ∧ (updateControl 0 (setup 0 7 (fun i => 200 + i)) [129, 13] true 0).nRightBit ≤ 1
    ∧ ∀ i b,
        (neighbourhood (updateControl 0 (setup 0 7 (fun i => 200 + i)) [129, 13] true 0)
          i b).1 ≤ 1
        ∧ (neighbourhood (updateControl 0 (setup 0 7 (fun i => 200 + i)) [129, 13] true 0)
          i b).2.1 ≤ 1
        ∧ (neighbourhood (updateControl 0 (setup 0 7 (fun i => 200 + i)) [129, 13] true 0)
          i b).2.2 ≤ 1
        ∧ 4 * (neighbourhood (updateControl 0 (setup 0 7 (fun i => 200 + i)) [129, 13] true 0)
              i b).1
            + 2 * (neighbourhood
              (updateControl 0 (setup 0 7 (fun i => 200 + i)) [129, 13] true 0) i b).2.1
            + (neighbourhood (updateControl 0 (setup 0 7 (fun i => 200 + i)) [129, 13] true 0)
              i b).2.2 ≤ 7
        ∧ newBit (updateControl 0 (setup 0 7 (fun i => 200 + i)) [129, 13] true 0) i b
            = bitRead RULE
              (4 * (neighbourhood
                  (updateControl 0 (setup 0 7 (fun i => 200 + i)) [129, 13] true 0) i b).1
                + 2 * (neighbourhood
                  (updateControl 0 (setup 0 7 (fun i => 200 + i)) [129, 13] true 0) i b).2.1
                + (neighbourhood
                  (updateControl 0 (setup 0 7 (fun i => 200 + i)) [129, 13] true 0) i b).2.2) :=
  ⟨Reachable.tick _ _ _ _ (Reachable.setup _ _),
    rule_index_in_range 0 _ (Reachable.tick _ _ _ _ (Reachable.setup _ _))⟩

end CellularOrchestra
